import Mathlib

/-
Verification of the LiDAR/ZMQ sensor-fusion bridge
(src/lidar_zmq_refined.cpp, refined variant).

Shallow embedding conventions:
* C `float` angle/distance arithmetic is modelled exactly over `ℚ`.
* `uint64_t` millisecond timestamps are modelled as `ℕ`; the wrapping
  subtraction `a - b` on `uint64_t` is modelled by `usub64` with an
  explicit `% 2 ^ 64`.
* The two `while` loops of `convertRawAngleToDegrees` are modelled as
  fuel-bounded iteration where the fuel is proved sufficient
  (`addLoop_recurrence` / `subLoop_recurrence` show the defining
  while-loop equations hold).
* `std::map` / `std::unordered_map` are modelled as association lists
  with the same find/insert/overwrite behaviour.
-/

/-- Constant `MAX_ANGLE_DIFF` (10.0): maximum angle difference for correlation. -/
def MAX_ANGLE_DIFF : ℚ := 10

/-- Constant `ANGLE_BUCKET_SIZE` (5.0): size of angle buckets for correlation. -/
def ANGLE_BUCKET_SIZE : ℚ := 5

/-- Constant `MIN_DISTANCE_MM` (100). -/
def MIN_DISTANCE_MM : ℚ := 100

/-- Constant `MAX_DISTANCE_MM` (3000). -/
def MAX_DISTANCE_MM : ℚ := 3000

/-- Constant `MAX_OBJECT_AGE_MS` (500). -/
def MAX_OBJECT_AGE_MS : ℕ := 500

/-- Constant `FORCE_PUBLISH_MS` (100). -/
def FORCE_PUBLISH_MS : ℕ := 100

/-- Constant `MAX_CONSECUTIVE_FAILURES` from `main` (value 3). -/
def MAX_CONSECUTIVE_FAILURES : ℕ := 3

/-- C `roundf`: round half away from zero, as used by `roundToNearest`. -/
def roundQ (x : ℚ) : ℤ := if 0 ≤ x then ⌊x + 1 / 2⌋ else ⌈x - 1 / 2⌉

/-- C `static_cast<int>` on a float value: truncation toward zero. -/
def truncQ (x : ℚ) : ℤ := if 0 ≤ x then ⌊x⌋ else ⌈x⌉

/-- Function `roundToNearest(value, roundTo)` of the source. -/
def roundToNearest (value roundTo : ℚ) : ℚ := roundTo * (roundQ (value / roundTo) : ℚ)

/-- Function `quantizeAngle(angle)`: quantize to the nearest bucket. -/
def quantizeAngle (angle : ℚ) : ℤ := truncQ (roundToNearest angle ANGLE_BUCKET_SIZE)

/-- Fuel-bounded body of the loop `while (angle <= -180.0f) angle += 360.0f;`. -/
def addLoopAux : ℕ → ℚ → ℚ
  | 0, x => x
  | n + 1, x => if x ≤ -180 then addLoopAux n (x + 360) else x

/-- A fuel amount sufficient to run the `+= 360` loop to completion. -/
def addFuel (x : ℚ) : ℕ := (⌈(-180 - x) / 360⌉ + 1).toNat

/-- The loop `while (angle <= -180.0f) angle += 360.0f;` run to completion. -/
def addLoop (x : ℚ) : ℚ := addLoopAux (addFuel x) x

/-- Fuel-bounded body of the loop `while (angle > 180.0f) angle -= 360.0f;`. -/
def subLoopAux : ℕ → ℚ → ℚ
  | 0, x => x
  | n + 1, x => if 180 < x then subLoopAux n (x - 360) else x

/-- A fuel amount sufficient to run the `-= 360` loop to completion. -/
def subFuel (x : ℚ) : ℕ := (⌈(x - 180) / 360⌉).toNat

/-- The loop `while (angle > 180.0f) angle -= 360.0f;` run to completion. -/
def subLoop (x : ℚ) : ℚ := subLoopAux (subFuel x) x

/-- The two `±360` adjustment loops of `convertRawAngleToDegrees`, without
the leading negation (the pure wraparound-normalization stage). -/
def normalizeAngle (x : ℚ) : ℚ := subLoop (addLoop x)

/-- Function `convertRawAngleToDegrees(raw_angle)`: negate the clockwise
device angle, then adjust by `±360` into `(-180, 180]`. -/
def convertRawAngleToDegrees (raw_angle : ℚ) : ℚ := subLoop (addLoop (-raw_angle))

-- Basic facts about the fuel computations and the loops.

lemma addLoopAux_of_lt (n : ℕ) (x : ℚ) (h : -180 < x) : addLoopAux n x = x := by
  cases n with
  | zero => rfl
  | succ n => simp [addLoopAux, not_le.mpr h]

lemma subLoopAux_of_le (n : ℕ) (x : ℚ) (h : x ≤ 180) : subLoopAux n x = x := by
  cases n with
  | zero => rfl
  | succ n => simp [subLoopAux, not_lt.mpr h]

lemma addFuel_pos (x : ℚ) (h : x ≤ -180) : 1 ≤ addFuel x := by
  have h0 : (0 : ℚ) ≤ (-180 - x) / 360 := by
    apply div_nonneg (by linarith) (by norm_num)
  have h1 : (0 : ℤ) ≤ ⌈(-180 - x) / 360⌉ := Int.ceil_nonneg h0
  unfold addFuel
  omega

lemma addFuel_step (x : ℚ) (h : x ≤ -180) : addFuel x = addFuel (x + 360) + 1 := by
  have key : (-180 - (x + 360)) / 360 = (-180 - x) / 360 - 1 := by ring
  have h0 : (0 : ℚ) ≤ (-180 - x) / 360 := by
    apply div_nonneg (by linarith) (by norm_num)
  have h1 : (0 : ℤ) ≤ ⌈(-180 - x) / 360⌉ := Int.ceil_nonneg h0
  unfold addFuel
  rw [key, Int.ceil_sub_one]
  omega

lemma addLoop_of_le (x : ℚ) (h : x ≤ -180) : addLoop x = addLoop (x + 360) := by
  unfold addLoop
  rw [addFuel_step x h]
  simp [addLoopAux, h]

lemma addLoop_of_lt (x : ℚ) (h : -180 < x) : addLoop x = x :=
  addLoopAux_of_lt _ _ h

/-- The model satisfies the defining equation of the C `while` loop. -/
lemma addLoop_recurrence (x : ℚ) :
    addLoop x = if x ≤ -180 then addLoop (x + 360) else x := by
  by_cases h : x ≤ -180
  · rw [if_pos h]; exact addLoop_of_le x h
  · rw [if_neg h]; exact addLoop_of_lt x (not_le.mp h)

lemma subFuel_pos (x : ℚ) (h : 180 < x) : 1 ≤ subFuel x := by
  have h0 : (0 : ℚ) < (x - 180) / 360 := by
    apply div_pos (by linarith) (by norm_num)
  have h1 : (1 : ℤ) ≤ ⌈(x - 180) / 360⌉ := by
    exact_mod_cast Int.ceil_pos.mpr h0
  unfold subFuel
  omega

lemma subFuel_step (x : ℚ) (h : 180 < x) : subFuel x = subFuel (x - 360) + 1 := by
  have key : ((x - 360) - 180) / 360 = (x - 180) / 360 - 1 := by ring
  have h0 : (0 : ℚ) < (x - 180) / 360 := by
    apply div_pos (by linarith) (by norm_num)
  have h1 : (1 : ℤ) ≤ ⌈(x - 180) / 360⌉ := by
    exact_mod_cast Int.ceil_pos.mpr h0
  unfold subFuel
  rw [key, Int.ceil_sub_one]
  omega

lemma subLoop_of_gt (x : ℚ) (h : 180 < x) : subLoop x = subLoop (x - 360) := by
  unfold subLoop
  rw [subFuel_step x h]
  simp [subLoopAux, h]

lemma subLoop_of_le (x : ℚ) (h : x ≤ 180) : subLoop x = x :=
  subLoopAux_of_le _ _ h

/-- The model satisfies the defining equation of the C `while` loop. -/
lemma subLoop_recurrence (x : ℚ) :
    subLoop x = if 180 < x then subLoop (x - 360) else x := by
  by_cases h : 180 < x
  · rw [if_pos h]; exact subLoop_of_gt x h
  · rw [if_neg h]; exact subLoop_of_le x (not_lt.mp h)

lemma addLoopAux_gt (n : ℕ) : ∀ x : ℚ, addFuel x ≤ n → -180 < addLoopAux n x := by
  induction n with
  | zero =>
    intro x hx
    have h1 : ⌈(-180 - x) / 360⌉ + 1 ≤ 0 := by
      by_contra hc
      push_neg at hc
      unfold addFuel at hx
      omega
    have h2 : (-180 - x) / 360 ≤ (⌈(-180 - x) / 360⌉ : ℚ) := Int.le_ceil _
    have h3 : ((⌈(-180 - x) / 360⌉ : ℤ) : ℚ) ≤ -1 := by exact_mod_cast (by omega : ⌈(-180 - x) / 360⌉ ≤ -1)
    have h4 : (-180 - x) / 360 ≤ -1 := le_trans h2 h3
    have h5 : -180 - x ≤ -360 := by
      have := (div_le_iff₀ (by norm_num : (0:ℚ) < 360)).mp h4
      linarith
    show -180 < addLoopAux 0 x
    simp only [addLoopAux]
    linarith
  | succ n ih =>
    intro x hx
    simp only [addLoopAux]
    by_cases h : x ≤ -180
    · rw [if_pos h]
      apply ih
      have := addFuel_step x h
      omega
    · rw [if_neg h]
      exact not_le.mp h

lemma addLoop_gt (x : ℚ) : -180 < addLoop x := addLoopAux_gt (addFuel x) x le_rfl

lemma subLoopAux_le (n : ℕ) : ∀ x : ℚ, subFuel x ≤ n → subLoopAux n x ≤ 180 := by
  induction n with
  | zero =>
    intro x hx
    have h1 : ⌈(x - 180) / 360⌉ ≤ 0 := by
      by_contra hc
      push_neg at hc
      unfold subFuel at hx
      omega
    have h2 : (x - 180) / 360 ≤ 0 := by
      by_contra hc
      push_neg at hc
      have := Int.ceil_pos.mpr hc
      omega
    have h3 : x - 180 ≤ 0 := by
      by_contra hc
      push_neg at hc
      have : (0 : ℚ) < (x - 180) / 360 := div_pos hc (by norm_num)
      linarith
    show subLoopAux 0 x ≤ 180
    simp only [subLoopAux]
    linarith
  | succ n ih =>
    intro x hx
    simp only [subLoopAux]
    by_cases h : 180 < x
    · rw [if_pos h]
      apply ih
      have := subFuel_step x h
      omega
    · rw [if_neg h]
      exact not_lt.mp h

lemma subLoop_le (x : ℚ) : subLoop x ≤ 180 := subLoopAux_le (subFuel x) x le_rfl

lemma subLoopAux_gt (n : ℕ) : ∀ x : ℚ, -180 < x → -180 < subLoopAux n x := by
  induction n with
  | zero => intro x hx; simpa [subLoopAux] using hx
  | succ n ih =>
    intro x hx
    simp only [subLoopAux]
    by_cases h : 180 < x
    · rw [if_pos h]
      exact ih _ (by linarith)
    · rw [if_neg h]
      exact hx

lemma subLoop_gt (x : ℚ) (hx : -180 < x) : -180 < subLoop x :=
  subLoopAux_gt (subFuel x) x hx

lemma normalizeAngle_mem (x : ℚ) :
    -180 < normalizeAngle x ∧ normalizeAngle x ≤ 180 :=
  ⟨subLoop_gt _ (addLoop_gt x), subLoop_le _⟩

lemma normalizeAngle_fixed (x : ℚ) (h1 : -180 < x) (h2 : x ≤ 180) :
    normalizeAngle x = x := by
  unfold normalizeAngle
  rw [addLoop_of_lt x h1, subLoop_of_le x h2]

lemma normalizeAngle_add_360 (x : ℚ) :
    normalizeAngle (x + 360) = normalizeAngle x := by
  unfold normalizeAngle
  by_cases h : x ≤ -180
  · rw [addLoop_of_le x h]
  · have hx : -180 < x := not_le.mp h
    rw [addLoop_of_lt x hx, addLoop_of_lt (x + 360) (by linarith),
      subLoop_of_gt (x + 360) (by linarith)]
    norm_num

-- Facts about C rounding and the quantization.

lemma roundQ_abs_le (x : ℚ) : |(roundQ x : ℚ) - x| ≤ 1 / 2 := by
  unfold roundQ
  by_cases h : 0 ≤ x
  · rw [if_pos h]
    have h1 : (⌊x + 1 / 2⌋ : ℚ) ≤ x + 1 / 2 := Int.floor_le _
    have h2 : x + 1 / 2 - 1 < (⌊x + 1 / 2⌋ : ℚ) := Int.sub_one_lt_floor _
    rw [abs_le]
    constructor <;> linarith
  · rw [if_neg h]
    have h1 : (x - 1 / 2 : ℚ) ≤ ⌈x - 1 / 2⌉ := Int.le_ceil _
    have h2 : (⌈x - 1 / 2⌉ : ℚ) < x - 1 / 2 + 1 := Int.ceil_lt_add_one _
    rw [abs_le]
    constructor <;> linarith

lemma truncQ_intCast (n : ℤ) : truncQ (n : ℚ) = n := by
  unfold truncQ
  by_cases h : (0 : ℚ) ≤ (n : ℚ)
  · rw [if_pos h, Int.floor_intCast]
  · rw [if_neg h, Int.ceil_intCast]

/-- Unfolding `quantizeAngle`: it returns `5 * round(angle / 5)` as an integer. -/
lemma quantizeAngle_eq (angle : ℚ) : quantizeAngle angle = 5 * roundQ (angle / 5) := by
  unfold quantizeAngle roundToNearest ANGLE_BUCKET_SIZE
  have : (5 : ℚ) * (roundQ (angle / 5) : ℚ) = ((5 * roundQ (angle / 5) : ℤ) : ℚ) := by
    push_cast
    ring
  rw [this, truncQ_intCast]

/-- The quantized bucket is within half a bucket width of the angle. -/
lemma quantizeAngle_close (angle : ℚ) : |angle - (quantizeAngle angle : ℚ)| ≤ 5 / 2 := by
  rw [quantizeAngle_eq]
  have h := roundQ_abs_le (angle / 5)
  rw [abs_le] at h ⊢
  push_cast
  constructor <;> [linarith; linarith]

/-- For an angle in `[-90, 90]` the quantized bucket stays in `[-90, 90]`. -/
lemma quantizeAngle_mem (angle : ℚ) (h1 : -90 ≤ angle) (h2 : angle ≤ 90) :
    -90 ≤ quantizeAngle angle ∧ quantizeAngle angle ≤ 90 := by
  rw [quantizeAngle_eq]
  have h := roundQ_abs_le (angle / 5)
  rw [abs_le] at h
  have hlo : (-37 : ℚ) / 2 ≤ (roundQ (angle / 5) : ℚ) := by linarith
  have hhi : (roundQ (angle / 5) : ℚ) ≤ 37 / 2 := by linarith
  have hlo2 : (-19 : ℤ) < roundQ (angle / 5) := by
    by_contra hc
    push_neg at hc
    have : ((roundQ (angle / 5) : ℤ) : ℚ) ≤ -19 := by exact_mod_cast hc
    linarith
  have hhi2 : roundQ (angle / 5) < 19 := by
    by_contra hc
    push_neg at hc
    have : (19 : ℚ) ≤ ((roundQ (angle / 5) : ℤ) : ℚ) := by exact_mod_cast hc
    linarith
  omega

-- Association-list model of `std::map` / `std::unordered_map` lookup.

/-- Lookup `map.find(k)`: first entry with key `k`, if any. -/
def findKey {α β : Type} [DecidableEq α] : List (α × β) → α → Option β
  | [], _ => none
  | p :: rest, k => if p.1 = k then some p.2 else findKey rest k

lemma findKey_some_mem {α β : Type} [DecidableEq α] (l : List (α × β)) (k : α) (d : β)
    (h : findKey l k = some d) : (k, d) ∈ l := by
  induction l with
  | nil => simp [findKey] at h
  | cons p rest ih =>
    by_cases hp : p.1 = k
    · simp only [findKey, if_pos hp, Option.some_inj] at h
      exact List.mem_cons.mpr (Or.inl (by rw [Prod.ext_iff]; exact ⟨hp.symm, h.symm⟩))
    · simp only [findKey, if_neg hp] at h
      exact List.mem_cons_of_mem _ (ih h)

lemma findKey_isSome_of_mem {α β : Type} [DecidableEq α] (l : List (α × β)) (k : α) (d : β)
    (h : (k, d) ∈ l) : ∃ v, findKey l k = some v := by
  induction l with
  | nil => simp at h
  | cons p rest ih =>
    by_cases hp : p.1 = k
    · exact ⟨p.2, by simp [findKey, hp]⟩
    · rw [List.mem_cons] at h
      rcases h with h | h
      · rw [← h] at hp
        simp at hp
      · simpa [findKey, hp] using ih h

lemma findKey_none_of_not_mem {α β : Type} [DecidableEq α] (l : List (α × β)) (k : α)
    (h : k ∉ l.map Prod.fst) : findKey l k = none := by
  induction l with
  | nil => rfl
  | cons p rest ih =>
    simp only [List.map_cons, List.mem_cons] at h
    push_neg at h
    simp only [findKey, if_neg (Ne.symm h.1)]
    exact ih h.2

lemma findKey_nodup_mem {α β : Type} [DecidableEq α] (l : List (α × β)) (k : α) (d : β)
    (hnd : (l.map Prod.fst).Nodup) (h : (k, d) ∈ l) : findKey l k = some d := by
  induction l with
  | nil => simp at h
  | cons p rest ih =>
    simp only [List.map_cons, List.nodup_cons] at hnd
    rw [List.mem_cons] at h
    rcases h with h | h
    · rw [← h]
      simp [findKey]
    · have hp : p.1 ≠ k := by
        intro hc
        apply hnd.1
        rw [hc]
        exact List.mem_map_of_mem Prod.fst h
      simp only [findKey, if_neg hp]
      exact ih hnd.2 h

-- Range Sampler: the downsampling loop of `main` (lines 457-479).

/-- One raw measurement node `sl_lidar_response_measurement_node_hq_t`:
`angle_z_q14` (Q14 fixed-point angle) and `dist_mm_q2` (Q2 fixed-point mm). -/
structure LidarNode where
  angle_z_q14 : ℕ
  dist_mm_q2 : ℕ
deriving DecidableEq

/-- Insertion `downsampledPoints[bucketAngle] = distance` under the closest-point rule:
insert when absent, overwrite only when the new distance is smaller. -/
def insertClosest (pts : List (ℤ × ℚ)) (k : ℤ) (d : ℚ) : List (ℤ × ℚ) :=
  match pts with
  | [] => [(k, d)]
  | p :: rest =>
    if p.1 = k then (if d < p.2 then (k, d) :: rest else p :: rest)
    else p :: insertClosest rest k d

/-- Body of the per-node processing loop: convert the raw angle and distance,
filter to the forward hemisphere and the distance limits, quantize, insert. -/
def processNode (pts : List (ℤ × ℚ)) (node : LidarNode) : List (ℤ × ℚ) :=
  let rawAngle : ℚ := (node.angle_z_q14 : ℚ) * 360 / 16384
  let angle := convertRawAngleToDegrees rawAngle
  let distance : ℚ := (node.dist_mm_q2 : ℚ) / 4
  if -90 ≤ angle ∧ angle ≤ 90 ∧ MIN_DISTANCE_MM ≤ distance ∧ distance ≤ MAX_DISTANCE_MM then
    insertClosest pts (quantizeAngle angle) distance
  else pts

/-- The profile (both `downsampledPoints` and `g_angle_buckets`) produced from one scan. -/
def downsampleScan (nodes : List LidarNode) : List (ℤ × ℚ) :=
  nodes.foldl processNode []

lemma insertClosest_mem (pts : List (ℤ × ℚ)) (k : ℤ) (d : ℚ) (p : ℤ × ℚ)
    (h : p ∈ insertClosest pts k d) : p ∈ pts ∨ p = (k, d) := by
  induction pts with
  | nil =>
    simp only [insertClosest, List.mem_singleton] at h
    exact Or.inr h
  | cons q rest ih =>
    simp only [insertClosest] at h
    by_cases hq : q.1 = k
    · rw [if_pos hq] at h
      by_cases hd : d < q.2
      · rw [if_pos hd, List.mem_cons] at h
        rcases h with h | h
        · exact Or.inr h
        · exact Or.inl (List.mem_cons_of_mem _ h)
      · rw [if_neg hd] at h
        exact Or.inl h
    · rw [if_neg hq, List.mem_cons] at h
      rcases h with h | h
      · exact Or.inl (List.mem_cons.mpr (Or.inl h))
      · rcases ih h with h2 | h2
        · exact Or.inl (List.mem_cons_of_mem _ h2)
        · exact Or.inr h2

lemma insertClosest_keys (pts : List (ℤ × ℚ)) (k : ℤ) (d : ℚ) :
    ((insertClosest pts k d).map Prod.fst) = pts.map Prod.fst ∨
      ((insertClosest pts k d).map Prod.fst) = pts.map Prod.fst ++ [k] := by
  induction pts with
  | nil => right; rfl
  | cons q rest ih =>
    simp only [insertClosest]
    by_cases hq : q.1 = k
    · left
      by_cases hd : d < q.2
      · simp [if_pos hq, if_pos hd, hq]
      · simp [if_pos hq, if_neg hd]
    · rcases ih with h | h
      · left
        simp [if_neg hq, h]
      · right
        simp [if_neg hq, h]

lemma insertClosest_nodup (pts : List (ℤ × ℚ)) (k : ℤ) (d : ℚ)
    (hnd : (pts.map Prod.fst).Nodup) :
    ((insertClosest pts k d).map Prod.fst).Nodup := by
  induction pts with
  | nil => simp [insertClosest]
  | cons q rest ih =>
    simp only [List.map_cons, List.nodup_cons] at hnd
    simp only [insertClosest]
    by_cases hq : q.1 = k
    · by_cases hd : d < q.2
      · simp only [if_pos hq, if_pos hd, List.map_cons, List.nodup_cons]
        exact ⟨by rw [← hq]; exact hnd.1, hnd.2⟩
      · simp only [if_pos hq, if_neg hd, List.map_cons, List.nodup_cons]
        exact hnd
    · simp only [if_neg hq, List.map_cons, List.nodup_cons]
      refine ⟨?_, ih hnd.2⟩
      rcases insertClosest_keys rest k d with h | h
      · rw [h]; exact hnd.1
      · rw [h]
        simp only [List.mem_append, List.mem_singleton]
        push_neg
        exact ⟨hnd.1, hq⟩

/-- Invariant carried through the downsampling fold. -/
def profileOk (pts : List (ℤ × ℚ)) : Prop :=
  (∀ p ∈ pts, (-90 ≤ p.1 ∧ p.1 ≤ 90) ∧
    MIN_DISTANCE_MM ≤ p.2 ∧ p.2 ≤ MAX_DISTANCE_MM) ∧
  (pts.map Prod.fst).Nodup

lemma processNode_ok (pts : List (ℤ × ℚ)) (node : LidarNode) (h : profileOk pts) :
    profileOk (processNode pts node) := by
  unfold processNode
  set angle := convertRawAngleToDegrees ((node.angle_z_q14 : ℚ) * 360 / 16384) with hangle
  set distance := ((node.dist_mm_q2 : ℕ) : ℚ) / 4 with hdist
  by_cases hc : -90 ≤ angle ∧ angle ≤ 90 ∧ MIN_DISTANCE_MM ≤ distance ∧ distance ≤ MAX_DISTANCE_MM
  · rw [if_pos hc]
    constructor
    · intro p hp
      rcases insertClosest_mem _ _ _ _ hp with h2 | h2
      · exact h.1 p h2
      · rw [h2]
        refine ⟨quantizeAngle_mem angle hc.1 hc.2.1, hc.2.2.1, hc.2.2.2⟩
    · exact insertClosest_nodup _ _ _ h.2
  · rw [if_neg hc]
    exact h

lemma foldl_preserve {α β : Type} (f : α → β → α) (P : α → Prop)
    (hf : ∀ a b, P a → P (f a b)) :
    ∀ (l : List β) (a : α), P a → P (l.foldl f a) := by
  intro l
  induction l with
  | nil => intro a ha; exact ha
  | cons b rest ih =>
    intro a ha
    exact ih _ (hf a b ha)

lemma downsampleScan_ok (nodes : List LidarNode) : profileOk (downsampleScan nodes) := by
  unfold downsampleScan
  exact foldl_preserve processNode profileOk (fun a b ha => processNode_ok a b ha)
    nodes [] ⟨by simp, by simp⟩

-- Detection Correlator: `findClosestLidarPoint` (lines 230-249) and the
-- exact-bucket fast path of `main` (lines 537-552).

/-- One probe of `findClosestLidarPoint`: look up `checkBucket` and keep it
when its angular difference improves on the accumulator `(bestDist, minDiff)`. -/
def probeStep (pts : List (ℤ × ℚ)) (targetAngle : ℚ) (acc : ℚ × ℚ) (checkBucket : ℤ) :
    ℚ × ℚ :=
  match findKey pts checkBucket with
  | none => acc
  | some d =>
    if |targetAngle - (checkBucket : ℚ)| < acc.2 then (d, |targetAngle - (checkBucket : ℚ)|)
    else acc

/-- Function `findClosestLidarPoint(targetAngle, minDiff)`:
probe the target bucket and the two adjacent buckets, returning
`(bestDist, minDiff)` with initial values `(-1, 9999)`. -/
def findClosestLidarPoint (pts : List (ℤ × ℚ)) (targetAngle : ℚ) : ℚ × ℚ :=
  let bucket := quantizeAngle targetAngle
  ([-1, 0, 1] : List ℤ).foldl
    (fun acc off => probeStep pts targetAngle acc (bucket + off * 5)) (-1, 9999)

/-- The correlation lookup of `main`: exact quantized-bucket hit (with the
angular error forced to `0`), else `findClosestLidarPoint`; accept only if
the error is at most `MAX_ANGLE_DIFF` and the distance is positive.
Returns `(bestDist, minDiff)` on success. -/
def correlateDetection (pts : List (ℤ × ℚ)) (angleCam : ℚ) : Option (ℚ × ℚ) :=
  let r : ℚ × ℚ :=
    match findKey pts (quantizeAngle angleCam) with
    | some d => (d, 0)
    | none => findClosestLidarPoint pts angleCam
  if r.2 ≤ MAX_ANGLE_DIFF ∧ 0 < r.1 then some r else none

-- The naive reference lookup, following the spec's words: a full scan over
-- all profile buckets picking the bucket that minimizes the angular
-- difference to the query (as the non-bucketed variant of the source does
-- by iterating the whole `downsampledPoints` map).

/-- Naive full scan over every profile bucket, keeping the entry minimizing
`|query - bucketCenter|` (first entry wins on ties), from `(-1, 9999)`. -/
def naiveStep (angleCam : ℚ) (acc : ℚ × ℚ) (p : ℤ × ℚ) : ℚ × ℚ :=
  if |angleCam - (p.1 : ℚ)| < acc.2 then (p.2, |angleCam - (p.1 : ℚ)|) else acc

def naiveScan (pts : List (ℤ × ℚ)) (angleCam : ℚ) : ℚ × ℚ :=
  pts.foldl (naiveStep angleCam) (-1, 9999)

/-- Naive correlation: accept the nearest-angle bucket when the minimal
angular error is at most `MAX_ANGLE_DIFF` and the distance is positive. -/
def naiveCorrelate (pts : List (ℤ × ℚ)) (angleCam : ℚ) : Option (ℚ × ℚ) :=
  let r := naiveScan pts angleCam
  if r.2 ≤ MAX_ANGLE_DIFF ∧ 0 < r.1 then some r else none

-- Closed forms of the raw-angle conversion on the two relevant ranges.

lemma convertRaw_low (r : ℚ) (h1 : 0 ≤ r) (h2 : r < 180) :
    convertRawAngleToDegrees r = -r := by
  unfold convertRawAngleToDegrees
  rw [addLoop_of_lt _ (by linarith), subLoop_of_le _ (by linarith)]

lemma convertRaw_high (r : ℚ) (h1 : 180 ≤ r) (h2 : r < 540) :
    convertRawAngleToDegrees r = 360 - r := by
  unfold convertRawAngleToDegrees
  have step : -r + 360 = 360 - r := by ring
  rw [addLoop_of_le _ (by linarith), step, addLoop_of_lt _ (by linarith),
    subLoop_of_le _ (by linarith)]

-- Claim C6: normalization range and wraparound idempotence.

/-- C6 (counterexample): the claimed identity
`normalize(normalize(x) + 360) == normalize(x)` fails for the implemented
normalization `convertRawAngleToDegrees` (which negates its input before the
`±360` adjustment): at `x = 10` the left side is `10` and the right is `-10`. -/
theorem claim_C6_counterexample :
    convertRawAngleToDegrees (convertRawAngleToDegrees 10 + 360) ≠
      convertRawAngleToDegrees 10 := by
  rw [convertRaw_low 10 (by norm_num) (by norm_num)]
  norm_num
  rw [convertRaw_high 350 (by norm_num) (by norm_num)]
  norm_num

/-- C6 (amended): for every raw angle, `convertRawAngleToDegrees` returns a
value in `(-180, 180]`, and the `±360`-adjustment stage `normalizeAngle`
(the implementation without the leading negation) satisfies the wraparound
idempotence `normalize(normalize(x) + 360) = normalize(x)`; with the leading
negation included the identity fails. -/
theorem claim_C6 :
    (∀ x : ℚ, -180 < convertRawAngleToDegrees x ∧ convertRawAngleToDegrees x ≤ 180) ∧
      (∀ x : ℚ, normalizeAngle (normalizeAngle x + 360) = normalizeAngle x) := by
  constructor
  · intro x
    exact ⟨subLoop_gt _ (addLoop_gt _), subLoop_le _⟩
  · intro x
    rw [normalizeAngle_add_360]
    exact normalizeAngle_fixed _ (normalizeAngle_mem x).1 (normalizeAngle_mem x).2

-- Claim C2: the consecutive-failure policy of the acquisition loop
-- (`main`, lines 422-443 and 594-598).

/-- Input to one acquisition-loop iteration: either the scan grab succeeds,
or it fails and the subsequent `startScan` restart attempt succeeds or not. -/
inductive ScanOutcome where
  | ok : ScanOutcome
  | fail : Bool → ScanOutcome
deriving DecidableEq

/-- Why the acquisition loop stopped. -/
inductive StopReason where
  | ranOut : StopReason
  | tooManyFailures : StopReason
  | restartError : StopReason
deriving DecidableEq

/-- Result of running the acquisition loop: stop reason, process exit code,
and the final consecutive-failure counter. -/
structure LoopResult where
  reason : StopReason
  exitCode : ℤ
  failures : ℕ
deriving DecidableEq

/-- The acquisition loop of `main`, driven by a trace of grab outcomes.
On a failed grab the consecutive-failure counter is incremented and compared
against `MAX_CONSECUTIVE_FAILURES`; reaching it breaks out of the loop, and
the code after the loop runs `cleanup()` and then `return 0`. A successful
grab resets the counter to zero. A failed restart also breaks (returning 0).
An exhausted trace models `g_running` becoming false. -/
def acquisitionLoop : ℕ → List ScanOutcome → LoopResult
  | cf, [] => ⟨.ranOut, 0, cf⟩
  | _, .ok :: rest => acquisitionLoop 0 rest
  | cf, .fail restartOk :: rest =>
    if MAX_CONSECUTIVE_FAILURES ≤ cf + 1 then ⟨.tooManyFailures, 0, cf + 1⟩
    else if restartOk then acquisitionLoop (cf + 1) rest
    else ⟨.restartError, 0, cf + 1⟩

/-- C2 (counterexample): three consecutive failures do terminate the loop,
but the process then exits with code `0` (the `break` falls through to
`cleanup(); return 0;`), not with a non-zero exit code as claimed. -/
theorem claim_C2_counterexample :
    (acquisitionLoop 0 [.fail true, .fail true, .fail true]).reason =
        StopReason.tooManyFailures ∧
      (acquisitionLoop 0 [.fail true, .fail true, .fail true]).exitCode = 0 := by
  constructor <;> rfl

/-- C2 (amended): starting from a zero counter, three consecutive acquisition
failures terminate the loop with reason `tooManyFailures` and exit code `0`
(not non-zero), regardless of the rest of the trace; and two consecutive
failures followed by a success reset the counter to zero, so the run
continues exactly as a fresh run on the remaining trace. -/
theorem claim_C2 :
    ∀ rest : List ScanOutcome,
      (acquisitionLoop 0 ([.fail true, .fail true, .fail true] ++ rest) =
          ⟨StopReason.tooManyFailures, 0, 3⟩) ∧
        (acquisitionLoop 0 ([.fail true, .fail true, .ok] ++ rest) =
          acquisitionLoop 0 rest) := by
  intro rest
  constructor <;> simp [acquisitionLoop, MAX_CONSECUTIVE_FAILURES]

-- Minimization lemmas for the two correlation scans.

lemma findKey_none_not_mem {α β : Type} [DecidableEq α] (l : List (α × β)) (k : α) (d : β)
    (h : findKey l k = none) : (k, d) ∉ l := by
  intro hmem
  rcases findKey_isSome_of_mem l k d hmem with ⟨v, hv⟩
  rw [h] at hv
  cases hv

lemma naiveFold_no_improve (q : ℚ) (pts : List (ℤ × ℚ)) (acc : ℚ × ℚ)
    (h : ∀ p ∈ pts, acc.2 ≤ |q - (p.1 : ℚ)|) :
    pts.foldl (naiveStep q) acc = acc := by
  induction pts with
  | nil => rfl
  | cons p rest ih =>
    have hstep : naiveStep q acc p = acc := by
      unfold naiveStep
      rw [if_neg (not_lt.mpr (h p (List.mem_cons_self _ _)))]
    rw [List.foldl_cons, hstep]
    exact ih fun p2 h2 => h p2 (List.mem_cons_of_mem _ h2)

lemma naiveFold_min (q : ℚ) (pts : List (ℤ × ℚ)) (k : ℤ) (d : ℚ) :
    ∀ acc : ℚ × ℚ, (k, d) ∈ pts → (pts.map Prod.fst).Nodup →
      |q - (k : ℚ)| < acc.2 →
      (∀ p ∈ pts, p.1 ≠ k → |q - (k : ℚ)| < |q - (p.1 : ℚ)|) →
      pts.foldl (naiveStep q) acc = (d, |q - (k : ℚ)|) := by
  induction pts with
  | nil => intro acc hmem; simp at hmem
  | cons p rest ih =>
    intro acc hmem hnd hacc hmin
    simp only [List.map_cons, List.nodup_cons] at hnd
    by_cases hp : p.1 = k
    · have hpk : p = (k, d) := by
        rw [List.mem_cons] at hmem
        rcases hmem with h | h
        · exact h.symm
        · exact absurd (by rw [hp]; exact List.mem_map_of_mem Prod.fst h) hnd.1
      have hstep : naiveStep q acc p = (d, |q - (k : ℚ)|) := by
        unfold naiveStep
        rw [hpk, if_pos hacc]
      rw [List.foldl_cons, hstep]
      apply naiveFold_no_improve
      intro p2 h2
      have hne : p2.1 ≠ k := by
        intro hc
        apply hnd.1
        rw [hp, ← hc]
        exact List.mem_map_of_mem Prod.fst h2
      exact le_of_lt (hmin p2 (List.mem_cons_of_mem _ h2) hne)
    · have hmem2 : (k, d) ∈ rest := by
        rw [List.mem_cons] at hmem
        rcases hmem with h | h
        · exact absurd (by rw [← h] : p.1 = (k, d).1) hp
        · exact h
      have hlt : |q - (k : ℚ)| < (naiveStep q acc p).2 := by
        unfold naiveStep
        by_cases hc : |q - (p.1 : ℚ)| < acc.2
        · rw [if_pos hc]
          exact hmin p (List.mem_cons_self _ _) hp
        · rw [if_neg hc]
          exact hacc
      rw [List.foldl_cons]
      exact ih _ hmem2 hnd.2 hlt fun p2 h2 hne => hmin p2 (List.mem_cons_of_mem _ h2) hne

lemma exists_strict_argmin (q : ℚ) (pts : List (ℤ × ℚ)) :
    pts ≠ [] → (pts.map Prod.fst).Nodup →
      (∀ p ∈ pts, ∀ p2 ∈ pts, p.1 ≠ p2.1 → |q - (p.1 : ℚ)| ≠ |q - (p2.1 : ℚ)|) →
      ∃ pm ∈ pts, ∀ p ∈ pts, p.1 ≠ pm.1 → |q - (pm.1 : ℚ)| < |q - (p.1 : ℚ)| := by
  induction pts with
  | nil => intro h; exact absurd rfl h
  | cons p rest ih =>
    intro _ hnd htie
    simp only [List.map_cons, List.nodup_cons] at hnd
    by_cases hrne : rest = []
    case pos =>
      subst hrne
      refine ⟨p, List.mem_cons_self _ _, ?_⟩
      intro p2 h2 hne
      rw [List.mem_singleton] at h2
      rw [h2] at hne
      exact absurd rfl hne
    case neg =>
      rcases ih hrne hnd.2
          (fun p1 h1 p2 h2 => htie p1 (List.mem_cons_of_mem _ h1) p2 (List.mem_cons_of_mem _ h2))
        with ⟨pm, hpm, hmin⟩
      have hpne : p.1 ≠ pm.1 := by
        intro hc
        apply hnd.1
        rw [hc]
        exact List.mem_map_of_mem Prod.fst hpm
      have hne2 := htie p (List.mem_cons_self _ _) pm (List.mem_cons_of_mem _ hpm) hpne
      rcases lt_or_gt_of_ne hne2 with hlt | hgt
      · refine ⟨p, List.mem_cons_self _ _, ?_⟩
        intro p2 h2 hne3
        rw [List.mem_cons] at h2
        rcases h2 with h2 | h2
        · rw [h2] at hne3
          exact absurd rfl hne3
        · by_cases hc : p2.1 = pm.1
          · rw [hc]
            exact hlt
          · exact lt_trans hlt (hmin p2 h2 hc)
      · refine ⟨pm, List.mem_cons_of_mem _ hpm, ?_⟩
        intro p2 h2 hne3
        rw [List.mem_cons] at h2
        rcases h2 with h2 | h2
        · rw [h2]
          exact hgt
        · exact hmin p2 h2 hne3

lemma probeStep_none (pts : List (ℤ × ℚ)) (q : ℚ) (acc : ℚ × ℚ) (k : ℤ)
    (h : findKey pts k = none) : probeStep pts q acc k = acc := by
  unfold probeStep
  rw [h]

lemma probeStep_found_lt (pts : List (ℤ × ℚ)) (q : ℚ) (acc : ℚ × ℚ) (k : ℤ) (d : ℚ)
    (h : findKey pts k = some d) (h2 : |q - (k : ℚ)| < acc.2) :
    probeStep pts q acc k = (d, |q - (k : ℚ)|) := by
  unfold probeStep
  rw [h]
  exact if_pos h2

lemma probeStep_found_ge (pts : List (ℤ × ℚ)) (q : ℚ) (acc : ℚ × ℚ) (k : ℤ) (d : ℚ)
    (h : findKey pts k = some d) (h2 : ¬ |q - (k : ℚ)| < acc.2) :
    probeStep pts q acc k = acc := by
  unfold probeStep
  rw [h]
  exact if_neg h2

lemma findClosest_unfold (pts : List (ℤ × ℚ)) (q : ℚ) :
    findClosestLidarPoint pts q =
      probeStep pts q (probeStep pts q (probeStep pts q (-1, 9999)
        (quantizeAngle q - 5)) (quantizeAngle q)) (quantizeAngle q + 5) := by
  unfold findClosestLidarPoint
  simp only [List.foldl]
  have e1 : quantizeAngle q + -1 * 5 = quantizeAngle q - 5 := by ring
  have e2 : quantizeAngle q + 0 * 5 = quantizeAngle q := by ring
  have e3 : quantizeAngle q + 1 * 5 = quantizeAngle q + 5 := by ring
  rw [e1, e2, e3]

lemma adj_lo_bounds (q : ℚ) :
    5 / 2 ≤ |q - ((quantizeAngle q - 5 : ℤ) : ℚ)| ∧
      |q - ((quantizeAngle q - 5 : ℤ) : ℚ)| ≤ 15 / 2 := by
  have h := quantizeAngle_close q
  rw [abs_le] at h
  push_cast
  rw [abs_of_nonneg (by linarith)]
  constructor <;> linarith

lemma adj_hi_bounds (q : ℚ) :
    5 / 2 ≤ |q - ((quantizeAngle q + 5 : ℤ) : ℚ)| ∧
      |q - ((quantizeAngle q + 5 : ℤ) : ℚ)| ≤ 15 / 2 := by
  have h := quantizeAngle_close q
  rw [abs_le] at h
  push_cast
  rw [abs_of_nonpos (by linarith)]
  constructor <;> linarith

/-- On a miss of the exact bucket, the probe returns the strict angular
argmin among the populated buckets, provided all populated buckets lie
within one bucket width of the query's quantized bucket. -/
lemma probeFold_min (pts : List (ℤ × ℚ)) (q : ℚ) (pm : ℤ × ℚ)
    (hnd : (pts.map Prod.fst).Nodup)
    (hmiss : findKey pts (quantizeAngle q) = none)
    (hpm : pm ∈ pts)
    (hsub : ∀ p ∈ pts, p.1 = quantizeAngle q - 5 ∨ p.1 = quantizeAngle q ∨
      p.1 = quantizeAngle q + 5)
    (hmin : ∀ p ∈ pts, p.1 ≠ pm.1 → |q - (pm.1 : ℚ)| < |q - (p.1 : ℚ)|) :
    findClosestLidarPoint pts q = (pm.2, |q - (pm.1 : ℚ)|) := by
  have hpm2 : (pm.1, pm.2) ∈ pts := by simpa using hpm
  have hnotb : pm.1 ≠ quantizeAngle q := by
    intro hc
    exact findKey_none_not_mem pts (quantizeAngle q) pm.2 hmiss (hc ▸ hpm2)
  rw [findClosest_unfold]
  rcases hsub pm hpm with hcase | hcase | hcase
  · -- the argmin is the lower adjacent bucket
    have hfind : findKey pts (quantizeAngle q - 5) = some pm.2 :=
      findKey_nodup_mem pts _ pm.2 hnd (hcase ▸ hpm2)
    rw [probeStep_found_lt pts q _ _ pm.2 hfind
      (by simpa using lt_of_le_of_lt (adj_lo_bounds q).2 (by norm_num)), ← hcase,
      probeStep_none pts q _ _ hmiss]
    rcases hk3 : findKey pts (quantizeAngle q + 5) with _ | d3
    · rw [probeStep_none pts q _ _ hk3]
    · have hmem3 : (quantizeAngle q + 5, d3) ∈ pts := findKey_some_mem _ _ _ hk3
      have hne3 : (quantizeAngle q + 5 : ℤ) ≠ pm.1 := by
        rw [hcase]
        intro hc
        omega
      rw [probeStep_found_ge pts q _ _ d3 hk3
        (not_lt.mpr (le_of_lt (by simpa using hmin _ hmem3 hne3)))]
  · exact absurd hcase hnotb
  · -- the argmin is the upper adjacent bucket
    have hfind : findKey pts (quantizeAngle q + 5) = some pm.2 :=
      findKey_nodup_mem pts _ pm.2 hnd (hcase ▸ hpm2)
    have hstep2 : ∀ acc : ℚ × ℚ, |q - (pm.1 : ℚ)| < acc.2 →
        probeStep pts q (probeStep pts q acc (quantizeAngle q)) (quantizeAngle q + 5) =
          (pm.2, |q - (pm.1 : ℚ)|) := by
      intro acc hacc
      rw [probeStep_none pts q _ _ hmiss, ← hcase,
        probeStep_found_lt pts q _ _ pm.2 (hcase ▸ hfind) hacc]
    rcases hk1 : findKey pts (quantizeAngle q - 5) with _ | d1
    · rw [probeStep_none pts q _ _ hk1]
      exact hstep2 _ (by rw [hcase]; simpa using lt_of_le_of_lt (adj_hi_bounds q).2 (by norm_num))
    · have hmem1 : (quantizeAngle q - 5, d1) ∈ pts := findKey_some_mem _ _ _ hk1
      have hne1 : (quantizeAngle q - 5 : ℤ) ≠ pm.1 := by
        rw [hcase]
        intro hc
        omega
      rw [probeStep_found_lt pts q _ _ d1 hk1
        (by simpa using lt_of_le_of_lt (adj_lo_bounds q).2 (by norm_num))]
      exact hstep2 _ (by simpa using hmin _ hmem1 hne1)

-- Claim C1: the bucketed lookup versus the naive full scan.

/-- C1 (counterexample): with a profile holding only bucket `10` (distance
`500`) and query angle `0`, the naive full scan matches (angular error
`10 ≤ MAX_ANGLE_DIFF`), but the optimized lookup probes only buckets
`-5, 0, 5` and reports no match — so the two are not equivalent. -/
theorem claim_C1_counterexample :
    correlateDetection [((10 : ℤ), (500 : ℚ))] 0 = none ∧
      (naiveCorrelate [((10 : ℤ), (500 : ℚ))] 0).map Prod.fst = some 500 := by
  constructor
  · norm_num [correlateDetection, findClosestLidarPoint, probeStep, findKey,
      quantizeAngle_eq, roundQ, List.foldl, MAX_ANGLE_DIFF]
  · norm_num [naiveCorrelate, naiveScan, naiveStep, List.foldl, MAX_ANGLE_DIFF]

/-- C1 (amended): the optimized bucketed lookup agrees with the naive
full-scan nearest-angle search (same matched distance and same match
decision) whenever every populated profile bucket lies within one bucket
width of the query's quantized bucket, all stored distances are positive,
the bucket keys are distinct and no two distinct populated buckets are
exactly equidistant from the query. In general the equivalence fails: the
naive scan can match a bucket two bucket widths away (angular error still
within `MAX_ANGLE_DIFF`) that the optimized probe never examines. -/
theorem claim_C1 (pts : List (ℤ × ℚ)) (q : ℚ)
    (hpos : ∀ p ∈ pts, 0 < p.2)
    (hsub : ∀ p ∈ pts, p.1 = quantizeAngle q - 5 ∨ p.1 = quantizeAngle q ∨
      p.1 = quantizeAngle q + 5)
    (hnd : (pts.map Prod.fst).Nodup)
    (htie : ∀ p ∈ pts, ∀ p2 ∈ pts, p.1 ≠ p2.1 → |q - (p.1 : ℚ)| ≠ |q - (p2.1 : ℚ)|) :
    (correlateDetection pts q).map Prod.fst = (naiveCorrelate pts q).map Prod.fst := by
  have hclose := quantizeAngle_close q
  rcases hexact : findKey pts (quantizeAngle q) with _ | d
  · -- miss of the exact bucket
    rcases List.eq_nil_or_concat pts with hnil | hcons
    · subst hnil
      have hprobe : findClosestLidarPoint [] q = (-1, 9999) := by
        rw [findClosest_unfold]
        simp [probeStep, findKey]
      unfold correlateDetection naiveCorrelate naiveScan
      rw [hexact, hprobe]
      norm_num [MAX_ANGLE_DIFF]
    · have hne : pts ≠ [] := by
        rcases hcons with ⟨l, a, hl⟩
        subst hl
        exact List.concat_ne_nil a l
      rcases exists_strict_argmin q pts hne hnd htie with ⟨pm, hpm, hmin⟩
      have hdiffbound : |q - (pm.1 : ℚ)| ≤ 15 / 2 := by
        rcases hsub pm hpm with hc | hc | hc
        · rw [hc]
          exact (adj_lo_bounds q).2
        · exfalso
          have hm2 : (quantizeAngle q, pm.2) ∈ pts := by
            rw [← hc]
            simpa using hpm
          have hf := findKey_nodup_mem pts _ pm.2 hnd hm2
          rw [hexact] at hf
          cases hf
        · rw [hc]
          exact (adj_hi_bounds q).2
      have hprobe := probeFold_min pts q pm hnd hexact hpm hsub hmin
      have hnaive := naiveFold_min q pts pm.1 pm.2 (-1, 9999) (by simpa using hpm) hnd
        (lt_of_le_of_lt hdiffbound (by norm_num)) hmin
      have hcorr : correlateDetection pts q = some (pm.2, |q - (pm.1 : ℚ)|) := by
        unfold correlateDetection
        rw [hexact, hprobe]
        exact if_pos ⟨le_trans hdiffbound (by norm_num [MAX_ANGLE_DIFF]), hpos pm hpm⟩
      have hnav : naiveCorrelate pts q = some (pm.2, |q - (pm.1 : ℚ)|) := by
        unfold naiveCorrelate naiveScan
        rw [hnaive]
        exact if_pos ⟨le_trans hdiffbound (by norm_num [MAX_ANGLE_DIFF]), hpos pm hpm⟩
      rw [hcorr, hnav]
  · -- exact-bucket hit: the quantized bucket is populated
    have hmem : (quantizeAngle q, d) ∈ pts := findKey_some_mem _ _ _ hexact
    have hmin : ∀ p ∈ pts, p.1 ≠ quantizeAngle q →
        |q - ((quantizeAngle q : ℤ) : ℚ)| < |q - (p.1 : ℚ)| := by
      intro p hp hnep
      have hge : 5 / 2 ≤ |q - (p.1 : ℚ)| := by
        rcases hsub p hp with hc | hc | hc
        · rw [hc]
          exact (adj_lo_bounds q).1
        · exact absurd hc hnep
        · rw [hc]
          exact (adj_hi_bounds q).1
      have hneq := htie p hp (quantizeAngle q, d) hmem hnep
      exact lt_of_le_of_ne (le_trans hclose hge) (by simpa using hneq.symm)
    have hnaive := naiveFold_min q pts (quantizeAngle q) d (-1, 9999) hmem hnd
      (lt_of_le_of_lt hclose (by norm_num)) hmin
    have hcorr : correlateDetection pts q = some (d, 0) := by
      unfold correlateDetection
      rw [hexact]
      exact if_pos ⟨by norm_num [MAX_ANGLE_DIFF], hpos _ hmem⟩
    have hnav : naiveCorrelate pts q = some (d, |q - ((quantizeAngle q : ℤ) : ℚ)|) := by
      unfold naiveCorrelate naiveScan
      rw [hnaive]
      exact if_pos ⟨le_trans hclose (by norm_num [MAX_ANGLE_DIFF]), hpos _ hmem⟩
    rw [hcorr, hnav]
    rfl

/-- C1 (witness): the amended equivalence at a concrete profile and query. -/
theorem claim_C1_witness :
    (correlateDetection [((5 : ℤ), (500 : ℚ))] 3).map Prod.fst =
      (naiveCorrelate [((5 : ℤ), (500 : ℚ))] 3).map Prod.fst := by
  apply claim_C1
  · intro p hp
    rw [List.mem_singleton] at hp
    rw [hp]
    norm_num
  · intro p hp
    rw [List.mem_singleton] at hp
    rw [hp]
    norm_num [quantizeAngle_eq, roundQ]
  · simp
  · intro p hp p2 hp2 hne
    rw [List.mem_singleton] at hp hp2
    rw [hp, hp2] at hne
    exact absurd rfl hne

-- Claim C7: tie-breaking between equidistant buckets.

/-- C7 (counterexample): with buckets `-5 ↦ 1000` and `5 ↦ 200` and query
angle `0`, the two buckets are equidistant (error `5`), yet the lookup
returns `1000` — the first-probed (lower-angle) bucket — not the smaller
distance `200`. -/
theorem claim_C7_counterexample :
    findClosestLidarPoint [((-5 : ℤ), (1000 : ℚ)), (5, 200)] 0 = (1000, 5) ∧
      (1000 : ℚ) ≠ min 1000 200 := by
  constructor
  · norm_num [findClosestLidarPoint, probeStep, findKey, quantizeAngle_eq, roundQ, List.foldl]
  · norm_num

/-- C7 (amended): whenever the two buckets adjacent to the query's (empty)
quantized bucket are both populated and exactly equidistant from the query
(which forces the query to sit at its bucket center), `findClosestLidarPoint`
returns the distance stored in the lower-angle bucket — the first one
probed — regardless of which of the two distances is smaller. -/
theorem claim_C7 (pts : List (ℤ × ℚ)) (q : ℚ) (d1 d2 : ℚ)
    (hq : ((quantizeAngle q : ℤ) : ℚ) = q)
    (hmiss : findKey pts (quantizeAngle q) = none)
    (h1 : findKey pts (quantizeAngle q - 5) = some d1)
    (h2 : findKey pts (quantizeAngle q + 5) = some d2) :
    findClosestLidarPoint pts q = (d1, 5) := by
  have e1 : |q - ((quantizeAngle q - 5 : ℤ) : ℚ)| = 5 := by
    push_cast
    rw [hq]
    norm_num
  have e2 : |q - ((quantizeAngle q + 5 : ℤ) : ℚ)| = 5 := by
    push_cast
    rw [hq]
    rw [abs_of_nonpos (by linarith)]
    ring
  rw [findClosest_unfold,
    probeStep_found_lt pts q _ _ d1 h1 (by rw [e1]; norm_num), e1,
    probeStep_none pts q _ _ hmiss,
    probeStep_found_ge pts q _ _ d2 h2 (by rw [e2]; norm_num)]

/-- C7 (witness): the amended tie-break at a concrete profile and query. -/
theorem claim_C7_witness :
    findClosestLidarPoint [((-5 : ℤ), (1000 : ℚ)), (5, 200)] 0 = (1000, 5) :=
  claim_C7 [((-5 : ℤ), (1000 : ℚ)), (5, 200)] 0 1000 200
    (by norm_num [quantizeAngle_eq, roundQ])
    (by norm_num [quantizeAngle_eq, roundQ, findKey])
    (by norm_num [quantizeAngle_eq, roundQ, findKey])
    (by norm_num [quantizeAngle_eq, roundQ, findKey])

-- Claim C3: the produced profile is filtered, quantized, and min-per-bucket.

/-- C3: every profile produced by the range-sampling step has only quantized
angles in `[-90, 90]` and distances in `[MIN_DISTANCE_MM, MAX_DISTANCE_MM]`,
holds at most one distance per bucket (distinct bucket keys), and on a
collision keeps the minimum distance: two samples quantizing to the same
bucket with distances `500` and `300` leave `300` in the bucket. -/
theorem claim_C3 :
    (∀ (nodes : List LidarNode) (p : ℤ × ℚ), p ∈ downsampleScan nodes →
      (-90 ≤ p.1 ∧ p.1 ≤ 90) ∧ MIN_DISTANCE_MM ≤ p.2 ∧ p.2 ≤ MAX_DISTANCE_MM) ∧
      (∀ nodes : List LidarNode, ((downsampleScan nodes).map Prod.fst).Nodup) ∧
      downsampleScan [⟨0, 2000⟩, ⟨0, 1200⟩] = [(0, 300)] := by
  refine ⟨fun nodes p hp => (downsampleScan_ok nodes).1 p hp,
    fun nodes => (downsampleScan_ok nodes).2, ?_⟩
  norm_num [downsampleScan, List.foldl, processNode, convertRaw_low 0 (by norm_num) (by norm_num),
    quantizeAngle_eq, roundQ, insertClosest, MIN_DISTANCE_MM, MAX_DISTANCE_MM]

/-- C3 (witness): the bounds at a concrete scan and profile entry. -/
theorem claim_C3_witness :
    (-90 ≤ (0 : ℤ) ∧ (0 : ℤ) ≤ 90) ∧ MIN_DISTANCE_MM ≤ (500 : ℚ) ∧
      (500 : ℚ) ≤ MAX_DISTANCE_MM :=
  claim_C3.1 [⟨0, 2000⟩] (0, 500) (by
    norm_num [downsampleScan, List.foldl, processNode,
      convertRaw_low 0 (by norm_num) (by norm_num), quantizeAngle_eq, roundQ, insertClosest,
      MIN_DISTANCE_MM, MAX_DISTANCE_MM])

-- Claim C8: size bound of the profile.

lemma quantizeAngle_form (angle : ℚ) (h1 : -90 ≤ angle) (h2 : angle ≤ 90) :
    ∃ m : ℤ, -18 ≤ m ∧ m ≤ 18 ∧ quantizeAngle angle = 5 * m := by
  refine ⟨roundQ (angle / 5), ?_, ?_, quantizeAngle_eq angle⟩
  · have := (quantizeAngle_mem angle h1 h2).1
    rw [quantizeAngle_eq] at this
    omega
  · have := (quantizeAngle_mem angle h1 h2).2
    rw [quantizeAngle_eq] at this
    omega

/-- Invariant: every profile key is `5 * m` for some `m ∈ [-18, 18]`. -/
def keysQuantized (pts : List (ℤ × ℚ)) : Prop :=
  ∀ p ∈ pts, ∃ m : ℤ, -18 ≤ m ∧ m ≤ 18 ∧ p.1 = 5 * m

lemma downsampleScan_keysQuantized (nodes : List LidarNode) :
    keysQuantized (downsampleScan nodes) := by
  unfold downsampleScan
  apply foldl_preserve processNode keysQuantized ?_ nodes [] (by intro p hp; simp at hp)
  intro start n base
  intro p hp
  simp only [processNode] at hp
  set angle := convertRawAngleToDegrees ((n.angle_z_q14 : ℚ) * 360 / 16384) with hangle
  by_cases hc : -90 ≤ angle ∧ angle ≤ 90 ∧
      MIN_DISTANCE_MM ≤ ((n.dist_mm_q2 : ℚ)) / 4 ∧ ((n.dist_mm_q2 : ℚ)) / 4 ≤ MAX_DISTANCE_MM
  · rw [if_pos hc] at hp
    rcases insertClosest_mem _ _ _ _ hp with h2 | h2
    · exact base p h2
    · rcases quantizeAngle_form angle hc.1 hc.2.1 with ⟨m, hm1, hm2, hm3⟩
      exact ⟨m, hm1, hm2, by rw [h2, hm3]⟩
  · rw [if_neg hc] at hp
    exact base p hp

/-- The 37 admissible bucket keys. -/
def bucketKeySet : Finset ℤ := (Finset.Icc (-18 : ℤ) 18).image (fun m => 5 * m)

lemma bucketKeySet_card : bucketKeySet.card = 37 := by
  unfold bucketKeySet
  rw [Finset.card_image_of_injective _ (fun a b h => by omega)]
  rw [Int.card_Icc]
  rfl

/-- C8 (amended): the profile produced from any scan has at most `37`
entries — the number of multiples of `5` in `[-90, 90]` — regardless of the
input batch size. The spec's bound `181 / resolution = 36.2` is off by one:
all `37` buckets are reachable. -/
theorem claim_C8 (nodes : List LidarNode) : (downsampleScan nodes).length ≤ 37 := by
  have hnd := (downsampleScan_ok nodes).2
  have hq := downsampleScan_keysQuantized nodes
  have hlen : (downsampleScan nodes).length =
      ((downsampleScan nodes).map Prod.fst).length := (List.length_map _ _).symm
  rw [hlen, ← List.toFinset_card_of_nodup hnd]
  have hsub : ((downsampleScan nodes).map Prod.fst).toFinset ⊆ bucketKeySet := by
    intro k hk
    rw [List.mem_toFinset, List.mem_map] at hk
    rcases hk with ⟨p, hp, hpk⟩
    rcases hq p hp with ⟨m, hm1, hm2, hm3⟩
    unfold bucketKeySet
    rw [Finset.mem_image]
    exact ⟨m, Finset.mem_Icc.mpr ⟨hm1, hm2⟩, by rw [← hpk, hm3]⟩
  calc ((downsampleScan nodes).map Prod.fst).toFinset.card
      ≤ bucketKeySet.card := Finset.card_le_card hsub
    _ = 37 := bucketKeySet_card



lemma roundQ_eval_nonneg (x : ℚ) (z : ℤ) (h0 : 0 ≤ x)
    (h1 : (z : ℚ) ≤ x + 1 / 2) (h2 : x + 1 / 2 < z + 1) : roundQ x = z := by
  unfold roundQ
  rw [if_pos h0, Int.floor_eq_iff]
  exact ⟨h1, by linarith⟩

lemma roundQ_eval_neg (x : ℚ) (z : ℤ) (h0 : ¬ 0 ≤ x)
    (h1 : (z : ℚ) - 1 < x - 1 / 2) (h2 : x - 1 / 2 ≤ z) : roundQ x = z := by
  unfold roundQ
  rw [if_neg h0, Int.ceil_eq_iff]
  exact ⟨h1, h2⟩

lemma processNode_eval (pts : List (ℤ × ℚ)) (node : LidarNode) (angle dist : ℚ)
    (ha : convertRawAngleToDegrees ((node.angle_z_q14 : ℚ) * 360 / 16384) = angle)
    (hd : ((node.dist_mm_q2 : ℚ)) / 4 = dist)
    (h1 : -90 ≤ angle) (h2 : angle ≤ 90)
    (h3 : MIN_DISTANCE_MM ≤ dist) (h4 : dist ≤ MAX_DISTANCE_MM) :
    processNode pts node = insertClosest pts (quantizeAngle angle) dist := by
  simp only [processNode]
  rw [ha, hd, if_pos ⟨h1, h2, h3, h4⟩]

lemma c8n0 (pts : List (ℤ × ℚ)) :
    processNode pts ⟨4096, 2000⟩ = insertClosest pts (-90) 500 := by
  have ha : convertRawAngleToDegrees (((4096 : ℕ) : ℚ) * 360 / 16384) = (-90 : ℚ) := by
    have hr : (((4096 : ℕ) : ℚ)) * 360 / 16384 = (90 : ℚ) := by norm_num
    rw [hr, convertRaw_low (90 : ℚ) (by norm_num) (by norm_num)]
    try norm_num
  have hq : quantizeAngle (-90 : ℚ) = (-90) := by
    rw [quantizeAngle_eq,
      roundQ_eval_neg ((-90 : ℚ) / 5) (-18) (by norm_num) (by norm_num) (by norm_num)]
    decide
  rw [processNode_eval pts ⟨4096, 2000⟩ (-90 : ℚ) 500 ha (by norm_num) (by norm_num)
    (by norm_num) (by norm_num [MIN_DISTANCE_MM]) (by norm_num [MAX_DISTANCE_MM]), hq]

lemma c8n1 (pts : List (ℤ × ℚ)) :
    processNode pts ⟨3868, 2000⟩ = insertClosest pts (-85) 500 := by
  have ha : convertRawAngleToDegrees (((3868 : ℕ) : ℚ) * 360 / 16384) = (-43515 / 512 : ℚ) := by
    have hr : (((3868 : ℕ) : ℚ)) * 360 / 16384 = (43515 / 512 : ℚ) := by norm_num
    rw [hr, convertRaw_low (43515 / 512 : ℚ) (by norm_num) (by norm_num)]
    try norm_num
  have hq : quantizeAngle (-43515 / 512 : ℚ) = (-85) := by
    rw [quantizeAngle_eq,
      roundQ_eval_neg ((-43515 / 512 : ℚ) / 5) (-17) (by norm_num) (by norm_num) (by norm_num)]
    decide
  rw [processNode_eval pts ⟨3868, 2000⟩ (-43515 / 512 : ℚ) 500 ha (by norm_num) (by norm_num)
    (by norm_num) (by norm_num [MIN_DISTANCE_MM]) (by norm_num [MAX_DISTANCE_MM]), hq]

lemma c8n2 (pts : List (ℤ × ℚ)) :
    processNode pts ⟨3641, 2000⟩ = insertClosest pts (-80) 500 := by
  have ha : convertRawAngleToDegrees (((3641 : ℕ) : ℚ) * 360 / 16384) = (-163845 / 2048 : ℚ) := by
    have hr : (((3641 : ℕ) : ℚ)) * 360 / 16384 = (163845 / 2048 : ℚ) := by norm_num
    rw [hr, convertRaw_low (163845 / 2048 : ℚ) (by norm_num) (by norm_num)]
    try norm_num
  have hq : quantizeAngle (-163845 / 2048 : ℚ) = (-80) := by
    rw [quantizeAngle_eq,
      roundQ_eval_neg ((-163845 / 2048 : ℚ) / 5) (-16) (by norm_num) (by norm_num) (by norm_num)]
    decide
  rw [processNode_eval pts ⟨3641, 2000⟩ (-163845 / 2048 : ℚ) 500 ha (by norm_num) (by norm_num)
    (by norm_num) (by norm_num [MIN_DISTANCE_MM]) (by norm_num [MAX_DISTANCE_MM]), hq]

lemma c8n3 (pts : List (ℤ × ℚ)) :
    processNode pts ⟨3413, 2000⟩ = insertClosest pts (-75) 500 := by
  have ha : convertRawAngleToDegrees (((3413 : ℕ) : ℚ) * 360 / 16384) = (-153585 / 2048 : ℚ) := by
    have hr : (((3413 : ℕ) : ℚ)) * 360 / 16384 = (153585 / 2048 : ℚ) := by norm_num
    rw [hr, convertRaw_low (153585 / 2048 : ℚ) (by norm_num) (by norm_num)]
    try norm_num
  have hq : quantizeAngle (-153585 / 2048 : ℚ) = (-75) := by
    rw [quantizeAngle_eq,
      roundQ_eval_neg ((-153585 / 2048 : ℚ) / 5) (-15) (by norm_num) (by norm_num) (by norm_num)]
    decide
  rw [processNode_eval pts ⟨3413, 2000⟩ (-153585 / 2048 : ℚ) 500 ha (by norm_num) (by norm_num)
    (by norm_num) (by norm_num [MIN_DISTANCE_MM]) (by norm_num [MAX_DISTANCE_MM]), hq]

lemma c8n4 (pts : List (ℤ × ℚ)) :
    processNode pts ⟨3186, 2000⟩ = insertClosest pts (-70) 500 := by
  have ha : convertRawAngleToDegrees (((3186 : ℕ) : ℚ) * 360 / 16384) = (-71685 / 1024 : ℚ) := by
    have hr : (((3186 : ℕ) : ℚ)) * 360 / 16384 = (71685 / 1024 : ℚ) := by norm_num
    rw [hr, convertRaw_low (71685 / 1024 : ℚ) (by norm_num) (by norm_num)]
    try norm_num
  have hq : quantizeAngle (-71685 / 1024 : ℚ) = (-70) := by
    rw [quantizeAngle_eq,
      roundQ_eval_neg ((-71685 / 1024 : ℚ) / 5) (-14) (by norm_num) (by norm_num) (by norm_num)]
    decide
  rw [processNode_eval pts ⟨3186, 2000⟩ (-71685 / 1024 : ℚ) 500 ha (by norm_num) (by norm_num)
    (by norm_num) (by norm_num [MIN_DISTANCE_MM]) (by norm_num [MAX_DISTANCE_MM]), hq]

lemma c8n5 (pts : List (ℤ × ℚ)) :
    processNode pts ⟨2958, 2000⟩ = insertClosest pts (-65) 500 := by
  have ha : convertRawAngleToDegrees (((2958 : ℕ) : ℚ) * 360 / 16384) = (-66555 / 1024 : ℚ) := by
    have hr : (((2958 : ℕ) : ℚ)) * 360 / 16384 = (66555 / 1024 : ℚ) := by norm_num
    rw [hr, convertRaw_low (66555 / 1024 : ℚ) (by norm_num) (by norm_num)]
    try norm_num
  have hq : quantizeAngle (-66555 / 1024 : ℚ) = (-65) := by
    rw [quantizeAngle_eq,
      roundQ_eval_neg ((-66555 / 1024 : ℚ) / 5) (-13) (by norm_num) (by norm_num) (by norm_num)]
    decide
  rw [processNode_eval pts ⟨2958, 2000⟩ (-66555 / 1024 : ℚ) 500 ha (by norm_num) (by norm_num)
    (by norm_num) (by norm_num [MIN_DISTANCE_MM]) (by norm_num [MAX_DISTANCE_MM]), hq]

lemma c8n6 (pts : List (ℤ × ℚ)) :
    processNode pts ⟨2731, 2000⟩ = insertClosest pts (-60) 500 := by
  have ha : convertRawAngleToDegrees (((2731 : ℕ) : ℚ) * 360 / 16384) = (-122895 / 2048 : ℚ) := by
    have hr : (((2731 : ℕ) : ℚ)) * 360 / 16384 = (122895 / 2048 : ℚ) := by norm_num
    rw [hr, convertRaw_low (122895 / 2048 : ℚ) (by norm_num) (by norm_num)]
    try norm_num
  have hq : quantizeAngle (-122895 / 2048 : ℚ) = (-60) := by
    rw [quantizeAngle_eq,
      roundQ_eval_neg ((-122895 / 2048 : ℚ) / 5) (-12) (by norm_num) (by norm_num) (by norm_num)]
    decide
  rw [processNode_eval pts ⟨2731, 2000⟩ (-122895 / 2048 : ℚ) 500 ha (by norm_num) (by norm_num)
    (by norm_num) (by norm_num [MIN_DISTANCE_MM]) (by norm_num [MAX_DISTANCE_MM]), hq]

lemma c8n7 (pts : List (ℤ × ℚ)) :
    processNode pts ⟨2503, 2000⟩ = insertClosest pts (-55) 500 := by
  have ha : convertRawAngleToDegrees (((2503 : ℕ) : ℚ) * 360 / 16384) = (-112635 / 2048 : ℚ) := by
    have hr : (((2503 : ℕ) : ℚ)) * 360 / 16384 = (112635 / 2048 : ℚ) := by norm_num
    rw [hr, convertRaw_low (112635 / 2048 : ℚ) (by norm_num) (by norm_num)]
    try norm_num
  have hq : quantizeAngle (-112635 / 2048 : ℚ) = (-55) := by
    rw [quantizeAngle_eq,
      roundQ_eval_neg ((-112635 / 2048 : ℚ) / 5) (-11) (by norm_num) (by norm_num) (by norm_num)]
    decide
  rw [processNode_eval pts ⟨2503, 2000⟩ (-112635 / 2048 : ℚ) 500 ha (by norm_num) (by norm_num)
    (by norm_num) (by norm_num [MIN_DISTANCE_MM]) (by norm_num [MAX_DISTANCE_MM]), hq]

lemma c8n8 (pts : List (ℤ × ℚ)) :
    processNode pts ⟨2276, 2000⟩ = insertClosest pts (-50) 500 := by
  have ha : convertRawAngleToDegrees (((2276 : ℕ) : ℚ) * 360 / 16384) = (-25605 / 512 : ℚ) := by
    have hr : (((2276 : ℕ) : ℚ)) * 360 / 16384 = (25605 / 512 : ℚ) := by norm_num
    rw [hr, convertRaw_low (25605 / 512 : ℚ) (by norm_num) (by norm_num)]
    try norm_num
  have hq : quantizeAngle (-25605 / 512 : ℚ) = (-50) := by
    rw [quantizeAngle_eq,
      roundQ_eval_neg ((-25605 / 512 : ℚ) / 5) (-10) (by norm_num) (by norm_num) (by norm_num)]
    decide
  rw [processNode_eval pts ⟨2276, 2000⟩ (-25605 / 512 : ℚ) 500 ha (by norm_num) (by norm_num)
    (by norm_num) (by norm_num [MIN_DISTANCE_MM]) (by norm_num [MAX_DISTANCE_MM]), hq]

lemma c8n9 (pts : List (ℤ × ℚ)) :
    processNode pts ⟨2048, 2000⟩ = insertClosest pts (-45) 500 := by
  have ha : convertRawAngleToDegrees (((2048 : ℕ) : ℚ) * 360 / 16384) = (-45 : ℚ) := by
    have hr : (((2048 : ℕ) : ℚ)) * 360 / 16384 = (45 : ℚ) := by norm_num
    rw [hr, convertRaw_low (45 : ℚ) (by norm_num) (by norm_num)]
    try norm_num
  have hq : quantizeAngle (-45 : ℚ) = (-45) := by
    rw [quantizeAngle_eq,
      roundQ_eval_neg ((-45 : ℚ) / 5) (-9) (by norm_num) (by norm_num) (by norm_num)]
    decide
  rw [processNode_eval pts ⟨2048, 2000⟩ (-45 : ℚ) 500 ha (by norm_num) (by norm_num)
    (by norm_num) (by norm_num [MIN_DISTANCE_MM]) (by norm_num [MAX_DISTANCE_MM]), hq]

lemma c8n10 (pts : List (ℤ × ℚ)) :
    processNode pts ⟨1820, 2000⟩ = insertClosest pts (-40) 500 := by
  have ha : convertRawAngleToDegrees (((1820 : ℕ) : ℚ) * 360 / 16384) = (-20475 / 512 : ℚ) := by
    have hr : (((1820 : ℕ) : ℚ)) * 360 / 16384 = (20475 / 512 : ℚ) := by norm_num
    rw [hr, convertRaw_low (20475 / 512 : ℚ) (by norm_num) (by norm_num)]
    try norm_num
  have hq : quantizeAngle (-20475 / 512 : ℚ) = (-40) := by
    rw [quantizeAngle_eq,
      roundQ_eval_neg ((-20475 / 512 : ℚ) / 5) (-8) (by norm_num) (by norm_num) (by norm_num)]
    decide
  rw [processNode_eval pts ⟨1820, 2000⟩ (-20475 / 512 : ℚ) 500 ha (by norm_num) (by norm_num)
    (by norm_num) (by norm_num [MIN_DISTANCE_MM]) (by norm_num [MAX_DISTANCE_MM]), hq]

lemma c8n11 (pts : List (ℤ × ℚ)) :
    processNode pts ⟨1593, 2000⟩ = insertClosest pts (-35) 500 := by
  have ha : convertRawAngleToDegrees (((1593 : ℕ) : ℚ) * 360 / 16384) = (-71685 / 2048 : ℚ) := by
    have hr : (((1593 : ℕ) : ℚ)) * 360 / 16384 = (71685 / 2048 : ℚ) := by norm_num
    rw [hr, convertRaw_low (71685 / 2048 : ℚ) (by norm_num) (by norm_num)]
    try norm_num
  have hq : quantizeAngle (-71685 / 2048 : ℚ) = (-35) := by
    rw [quantizeAngle_eq,
      roundQ_eval_neg ((-71685 / 2048 : ℚ) / 5) (-7) (by norm_num) (by norm_num) (by norm_num)]
    decide
  rw [processNode_eval pts ⟨1593, 2000⟩ (-71685 / 2048 : ℚ) 500 ha (by norm_num) (by norm_num)
    (by norm_num) (by norm_num [MIN_DISTANCE_MM]) (by norm_num [MAX_DISTANCE_MM]), hq]

lemma c8n12 (pts : List (ℤ × ℚ)) :
    processNode pts ⟨1365, 2000⟩ = insertClosest pts (-30) 500 := by
  have ha : convertRawAngleToDegrees (((1365 : ℕ) : ℚ) * 360 / 16384) = (-61425 / 2048 : ℚ) := by
    have hr : (((1365 : ℕ) : ℚ)) * 360 / 16384 = (61425 / 2048 : ℚ) := by norm_num
    rw [hr, convertRaw_low (61425 / 2048 : ℚ) (by norm_num) (by norm_num)]
    try norm_num
  have hq : quantizeAngle (-61425 / 2048 : ℚ) = (-30) := by
    rw [quantizeAngle_eq,
      roundQ_eval_neg ((-61425 / 2048 : ℚ) / 5) (-6) (by norm_num) (by norm_num) (by norm_num)]
    decide
  rw [processNode_eval pts ⟨1365, 2000⟩ (-61425 / 2048 : ℚ) 500 ha (by norm_num) (by norm_num)
    (by norm_num) (by norm_num [MIN_DISTANCE_MM]) (by norm_num [MAX_DISTANCE_MM]), hq]

lemma c8n13 (pts : List (ℤ × ℚ)) :
    processNode pts ⟨1138, 2000⟩ = insertClosest pts (-25) 500 := by
  have ha : convertRawAngleToDegrees (((1138 : ℕ) : ℚ) * 360 / 16384) = (-25605 / 1024 : ℚ) := by
    have hr : (((1138 : ℕ) : ℚ)) * 360 / 16384 = (25605 / 1024 : ℚ) := by norm_num
    rw [hr, convertRaw_low (25605 / 1024 : ℚ) (by norm_num) (by norm_num)]
    try norm_num
  have hq : quantizeAngle (-25605 / 1024 : ℚ) = (-25) := by
    rw [quantizeAngle_eq,
      roundQ_eval_neg ((-25605 / 1024 : ℚ) / 5) (-5) (by norm_num) (by norm_num) (by norm_num)]
    decide
  rw [processNode_eval pts ⟨1138, 2000⟩ (-25605 / 1024 : ℚ) 500 ha (by norm_num) (by norm_num)
    (by norm_num) (by norm_num [MIN_DISTANCE_MM]) (by norm_num [MAX_DISTANCE_MM]), hq]

lemma c8n14 (pts : List (ℤ × ℚ)) :
    processNode pts ⟨910, 2000⟩ = insertClosest pts (-20) 500 := by
  have ha : convertRawAngleToDegrees (((910 : ℕ) : ℚ) * 360 / 16384) = (-20475 / 1024 : ℚ) := by
    have hr : (((910 : ℕ) : ℚ)) * 360 / 16384 = (20475 / 1024 : ℚ) := by norm_num
    rw [hr, convertRaw_low (20475 / 1024 : ℚ) (by norm_num) (by norm_num)]
    try norm_num
  have hq : quantizeAngle (-20475 / 1024 : ℚ) = (-20) := by
    rw [quantizeAngle_eq,
      roundQ_eval_neg ((-20475 / 1024 : ℚ) / 5) (-4) (by norm_num) (by norm_num) (by norm_num)]
    decide
  rw [processNode_eval pts ⟨910, 2000⟩ (-20475 / 1024 : ℚ) 500 ha (by norm_num) (by norm_num)
    (by norm_num) (by norm_num [MIN_DISTANCE_MM]) (by norm_num [MAX_DISTANCE_MM]), hq]

lemma c8n15 (pts : List (ℤ × ℚ)) :
    processNode pts ⟨683, 2000⟩ = insertClosest pts (-15) 500 := by
  have ha : convertRawAngleToDegrees (((683 : ℕ) : ℚ) * 360 / 16384) = (-30735 / 2048 : ℚ) := by
    have hr : (((683 : ℕ) : ℚ)) * 360 / 16384 = (30735 / 2048 : ℚ) := by norm_num
    rw [hr, convertRaw_low (30735 / 2048 : ℚ) (by norm_num) (by norm_num)]
    try norm_num
  have hq : quantizeAngle (-30735 / 2048 : ℚ) = (-15) := by
    rw [quantizeAngle_eq,
      roundQ_eval_neg ((-30735 / 2048 : ℚ) / 5) (-3) (by norm_num) (by norm_num) (by norm_num)]
    decide
  rw [processNode_eval pts ⟨683, 2000⟩ (-30735 / 2048 : ℚ) 500 ha (by norm_num) (by norm_num)
    (by norm_num) (by norm_num [MIN_DISTANCE_MM]) (by norm_num [MAX_DISTANCE_MM]), hq]

lemma c8n16 (pts : List (ℤ × ℚ)) :
    processNode pts ⟨455, 2000⟩ = insertClosest pts (-10) 500 := by
  have ha : convertRawAngleToDegrees (((455 : ℕ) : ℚ) * 360 / 16384) = (-20475 / 2048 : ℚ) := by
    have hr : (((455 : ℕ) : ℚ)) * 360 / 16384 = (20475 / 2048 : ℚ) := by norm_num
    rw [hr, convertRaw_low (20475 / 2048 : ℚ) (by norm_num) (by norm_num)]
    try norm_num
  have hq : quantizeAngle (-20475 / 2048 : ℚ) = (-10) := by
    rw [quantizeAngle_eq,
      roundQ_eval_neg ((-20475 / 2048 : ℚ) / 5) (-2) (by norm_num) (by norm_num) (by norm_num)]
    decide
  rw [processNode_eval pts ⟨455, 2000⟩ (-20475 / 2048 : ℚ) 500 ha (by norm_num) (by norm_num)
    (by norm_num) (by norm_num [MIN_DISTANCE_MM]) (by norm_num [MAX_DISTANCE_MM]), hq]

lemma c8n17 (pts : List (ℤ × ℚ)) :
    processNode pts ⟨228, 2000⟩ = insertClosest pts (-5) 500 := by
  have ha : convertRawAngleToDegrees (((228 : ℕ) : ℚ) * 360 / 16384) = (-2565 / 512 : ℚ) := by
    have hr : (((228 : ℕ) : ℚ)) * 360 / 16384 = (2565 / 512 : ℚ) := by norm_num
    rw [hr, convertRaw_low (2565 / 512 : ℚ) (by norm_num) (by norm_num)]
    try norm_num
  have hq : quantizeAngle (-2565 / 512 : ℚ) = (-5) := by
    rw [quantizeAngle_eq,
      roundQ_eval_neg ((-2565 / 512 : ℚ) / 5) (-1) (by norm_num) (by norm_num) (by norm_num)]
    decide
  rw [processNode_eval pts ⟨228, 2000⟩ (-2565 / 512 : ℚ) 500 ha (by norm_num) (by norm_num)
    (by norm_num) (by norm_num [MIN_DISTANCE_MM]) (by norm_num [MAX_DISTANCE_MM]), hq]

lemma c8n18 (pts : List (ℤ × ℚ)) :
    processNode pts ⟨0, 2000⟩ = insertClosest pts (0) 500 := by
  have ha : convertRawAngleToDegrees (((0 : ℕ) : ℚ) * 360 / 16384) = (0 : ℚ) := by
    have hr : (((0 : ℕ) : ℚ)) * 360 / 16384 = (0 : ℚ) := by norm_num
    rw [hr, convertRaw_low (0 : ℚ) (by norm_num) (by norm_num)]
    try norm_num
  have hq : quantizeAngle (0 : ℚ) = (0) := by
    rw [quantizeAngle_eq,
      roundQ_eval_nonneg ((0 : ℚ) / 5) (0) (by norm_num) (by norm_num) (by norm_num)]
    decide
  rw [processNode_eval pts ⟨0, 2000⟩ (0 : ℚ) 500 ha (by norm_num) (by norm_num)
    (by norm_num) (by norm_num [MIN_DISTANCE_MM]) (by norm_num [MAX_DISTANCE_MM]), hq]

lemma c8n19 (pts : List (ℤ × ℚ)) :
    processNode pts ⟨16156, 2000⟩ = insertClosest pts (5) 500 := by
  have ha : convertRawAngleToDegrees (((16156 : ℕ) : ℚ) * 360 / 16384) = (2565 / 512 : ℚ) := by
    have hr : (((16156 : ℕ) : ℚ)) * 360 / 16384 = (181755 / 512 : ℚ) := by norm_num
    rw [hr, convertRaw_high (181755 / 512 : ℚ) (by norm_num) (by norm_num)]
    try norm_num
  have hq : quantizeAngle (2565 / 512 : ℚ) = (5) := by
    rw [quantizeAngle_eq,
      roundQ_eval_nonneg ((2565 / 512 : ℚ) / 5) (1) (by norm_num) (by norm_num) (by norm_num)]
    decide
  rw [processNode_eval pts ⟨16156, 2000⟩ (2565 / 512 : ℚ) 500 ha (by norm_num) (by norm_num)
    (by norm_num) (by norm_num [MIN_DISTANCE_MM]) (by norm_num [MAX_DISTANCE_MM]), hq]

lemma c8n20 (pts : List (ℤ × ℚ)) :
    processNode pts ⟨15929, 2000⟩ = insertClosest pts (10) 500 := by
  have ha : convertRawAngleToDegrees (((15929 : ℕ) : ℚ) * 360 / 16384) = (20475 / 2048 : ℚ) := by
    have hr : (((15929 : ℕ) : ℚ)) * 360 / 16384 = (716805 / 2048 : ℚ) := by norm_num
    rw [hr, convertRaw_high (716805 / 2048 : ℚ) (by norm_num) (by norm_num)]
    try norm_num
  have hq : quantizeAngle (20475 / 2048 : ℚ) = (10) := by
    rw [quantizeAngle_eq,
      roundQ_eval_nonneg ((20475 / 2048 : ℚ) / 5) (2) (by norm_num) (by norm_num) (by norm_num)]
    decide
  rw [processNode_eval pts ⟨15929, 2000⟩ (20475 / 2048 : ℚ) 500 ha (by norm_num) (by norm_num)
    (by norm_num) (by norm_num [MIN_DISTANCE_MM]) (by norm_num [MAX_DISTANCE_MM]), hq]

lemma c8n21 (pts : List (ℤ × ℚ)) :
    processNode pts ⟨15701, 2000⟩ = insertClosest pts (15) 500 := by
  have ha : convertRawAngleToDegrees (((15701 : ℕ) : ℚ) * 360 / 16384) = (30735 / 2048 : ℚ) := by
    have hr : (((15701 : ℕ) : ℚ)) * 360 / 16384 = (706545 / 2048 : ℚ) := by norm_num
    rw [hr, convertRaw_high (706545 / 2048 : ℚ) (by norm_num) (by norm_num)]
    try norm_num
  have hq : quantizeAngle (30735 / 2048 : ℚ) = (15) := by
    rw [quantizeAngle_eq,
      roundQ_eval_nonneg ((30735 / 2048 : ℚ) / 5) (3) (by norm_num) (by norm_num) (by norm_num)]
    decide
  rw [processNode_eval pts ⟨15701, 2000⟩ (30735 / 2048 : ℚ) 500 ha (by norm_num) (by norm_num)
    (by norm_num) (by norm_num [MIN_DISTANCE_MM]) (by norm_num [MAX_DISTANCE_MM]), hq]

lemma c8n22 (pts : List (ℤ × ℚ)) :
    processNode pts ⟨15474, 2000⟩ = insertClosest pts (20) 500 := by
  have ha : convertRawAngleToDegrees (((15474 : ℕ) : ℚ) * 360 / 16384) = (20475 / 1024 : ℚ) := by
    have hr : (((15474 : ℕ) : ℚ)) * 360 / 16384 = (348165 / 1024 : ℚ) := by norm_num
    rw [hr, convertRaw_high (348165 / 1024 : ℚ) (by norm_num) (by norm_num)]
    try norm_num
  have hq : quantizeAngle (20475 / 1024 : ℚ) = (20) := by
    rw [quantizeAngle_eq,
      roundQ_eval_nonneg ((20475 / 1024 : ℚ) / 5) (4) (by norm_num) (by norm_num) (by norm_num)]
    decide
  rw [processNode_eval pts ⟨15474, 2000⟩ (20475 / 1024 : ℚ) 500 ha (by norm_num) (by norm_num)
    (by norm_num) (by norm_num [MIN_DISTANCE_MM]) (by norm_num [MAX_DISTANCE_MM]), hq]

lemma c8n23 (pts : List (ℤ × ℚ)) :
    processNode pts ⟨15246, 2000⟩ = insertClosest pts (25) 500 := by
  have ha : convertRawAngleToDegrees (((15246 : ℕ) : ℚ) * 360 / 16384) = (25605 / 1024 : ℚ) := by
    have hr : (((15246 : ℕ) : ℚ)) * 360 / 16384 = (343035 / 1024 : ℚ) := by norm_num
    rw [hr, convertRaw_high (343035 / 1024 : ℚ) (by norm_num) (by norm_num)]
    try norm_num
  have hq : quantizeAngle (25605 / 1024 : ℚ) = (25) := by
    rw [quantizeAngle_eq,
      roundQ_eval_nonneg ((25605 / 1024 : ℚ) / 5) (5) (by norm_num) (by norm_num) (by norm_num)]
    decide
  rw [processNode_eval pts ⟨15246, 2000⟩ (25605 / 1024 : ℚ) 500 ha (by norm_num) (by norm_num)
    (by norm_num) (by norm_num [MIN_DISTANCE_MM]) (by norm_num [MAX_DISTANCE_MM]), hq]

lemma c8n24 (pts : List (ℤ × ℚ)) :
    processNode pts ⟨15019, 2000⟩ = insertClosest pts (30) 500 := by
  have ha : convertRawAngleToDegrees (((15019 : ℕ) : ℚ) * 360 / 16384) = (61425 / 2048 : ℚ) := by
    have hr : (((15019 : ℕ) : ℚ)) * 360 / 16384 = (675855 / 2048 : ℚ) := by norm_num
    rw [hr, convertRaw_high (675855 / 2048 : ℚ) (by norm_num) (by norm_num)]
    try norm_num
  have hq : quantizeAngle (61425 / 2048 : ℚ) = (30) := by
    rw [quantizeAngle_eq,
      roundQ_eval_nonneg ((61425 / 2048 : ℚ) / 5) (6) (by norm_num) (by norm_num) (by norm_num)]
    decide
  rw [processNode_eval pts ⟨15019, 2000⟩ (61425 / 2048 : ℚ) 500 ha (by norm_num) (by norm_num)
    (by norm_num) (by norm_num [MIN_DISTANCE_MM]) (by norm_num [MAX_DISTANCE_MM]), hq]

lemma c8n25 (pts : List (ℤ × ℚ)) :
    processNode pts ⟨14791, 2000⟩ = insertClosest pts (35) 500 := by
  have ha : convertRawAngleToDegrees (((14791 : ℕ) : ℚ) * 360 / 16384) = (71685 / 2048 : ℚ) := by
    have hr : (((14791 : ℕ) : ℚ)) * 360 / 16384 = (665595 / 2048 : ℚ) := by norm_num
    rw [hr, convertRaw_high (665595 / 2048 : ℚ) (by norm_num) (by norm_num)]
    try norm_num
  have hq : quantizeAngle (71685 / 2048 : ℚ) = (35) := by
    rw [quantizeAngle_eq,
      roundQ_eval_nonneg ((71685 / 2048 : ℚ) / 5) (7) (by norm_num) (by norm_num) (by norm_num)]
    decide
  rw [processNode_eval pts ⟨14791, 2000⟩ (71685 / 2048 : ℚ) 500 ha (by norm_num) (by norm_num)
    (by norm_num) (by norm_num [MIN_DISTANCE_MM]) (by norm_num [MAX_DISTANCE_MM]), hq]

lemma c8n26 (pts : List (ℤ × ℚ)) :
    processNode pts ⟨14564, 2000⟩ = insertClosest pts (40) 500 := by
  have ha : convertRawAngleToDegrees (((14564 : ℕ) : ℚ) * 360 / 16384) = (20475 / 512 : ℚ) := by
    have hr : (((14564 : ℕ) : ℚ)) * 360 / 16384 = (163845 / 512 : ℚ) := by norm_num
    rw [hr, convertRaw_high (163845 / 512 : ℚ) (by norm_num) (by norm_num)]
    try norm_num
  have hq : quantizeAngle (20475 / 512 : ℚ) = (40) := by
    rw [quantizeAngle_eq,
      roundQ_eval_nonneg ((20475 / 512 : ℚ) / 5) (8) (by norm_num) (by norm_num) (by norm_num)]
    decide
  rw [processNode_eval pts ⟨14564, 2000⟩ (20475 / 512 : ℚ) 500 ha (by norm_num) (by norm_num)
    (by norm_num) (by norm_num [MIN_DISTANCE_MM]) (by norm_num [MAX_DISTANCE_MM]), hq]

lemma c8n27 (pts : List (ℤ × ℚ)) :
    processNode pts ⟨14336, 2000⟩ = insertClosest pts (45) 500 := by
  have ha : convertRawAngleToDegrees (((14336 : ℕ) : ℚ) * 360 / 16384) = (45 : ℚ) := by
    have hr : (((14336 : ℕ) : ℚ)) * 360 / 16384 = (315 : ℚ) := by norm_num
    rw [hr, convertRaw_high (315 : ℚ) (by norm_num) (by norm_num)]
    try norm_num
  have hq : quantizeAngle (45 : ℚ) = (45) := by
    rw [quantizeAngle_eq,
      roundQ_eval_nonneg ((45 : ℚ) / 5) (9) (by norm_num) (by norm_num) (by norm_num)]
    decide
  rw [processNode_eval pts ⟨14336, 2000⟩ (45 : ℚ) 500 ha (by norm_num) (by norm_num)
    (by norm_num) (by norm_num [MIN_DISTANCE_MM]) (by norm_num [MAX_DISTANCE_MM]), hq]

lemma c8n28 (pts : List (ℤ × ℚ)) :
    processNode pts ⟨14108, 2000⟩ = insertClosest pts (50) 500 := by
  have ha : convertRawAngleToDegrees (((14108 : ℕ) : ℚ) * 360 / 16384) = (25605 / 512 : ℚ) := by
    have hr : (((14108 : ℕ) : ℚ)) * 360 / 16384 = (158715 / 512 : ℚ) := by norm_num
    rw [hr, convertRaw_high (158715 / 512 : ℚ) (by norm_num) (by norm_num)]
    try norm_num
  have hq : quantizeAngle (25605 / 512 : ℚ) = (50) := by
    rw [quantizeAngle_eq,
      roundQ_eval_nonneg ((25605 / 512 : ℚ) / 5) (10) (by norm_num) (by norm_num) (by norm_num)]
    decide
  rw [processNode_eval pts ⟨14108, 2000⟩ (25605 / 512 : ℚ) 500 ha (by norm_num) (by norm_num)
    (by norm_num) (by norm_num [MIN_DISTANCE_MM]) (by norm_num [MAX_DISTANCE_MM]), hq]

lemma c8n29 (pts : List (ℤ × ℚ)) :
    processNode pts ⟨13881, 2000⟩ = insertClosest pts (55) 500 := by
  have ha : convertRawAngleToDegrees (((13881 : ℕ) : ℚ) * 360 / 16384) = (112635 / 2048 : ℚ) := by
    have hr : (((13881 : ℕ) : ℚ)) * 360 / 16384 = (624645 / 2048 : ℚ) := by norm_num
    rw [hr, convertRaw_high (624645 / 2048 : ℚ) (by norm_num) (by norm_num)]
    try norm_num
  have hq : quantizeAngle (112635 / 2048 : ℚ) = (55) := by
    rw [quantizeAngle_eq,
      roundQ_eval_nonneg ((112635 / 2048 : ℚ) / 5) (11) (by norm_num) (by norm_num) (by norm_num)]
    decide
  rw [processNode_eval pts ⟨13881, 2000⟩ (112635 / 2048 : ℚ) 500 ha (by norm_num) (by norm_num)
    (by norm_num) (by norm_num [MIN_DISTANCE_MM]) (by norm_num [MAX_DISTANCE_MM]), hq]

lemma c8n30 (pts : List (ℤ × ℚ)) :
    processNode pts ⟨13653, 2000⟩ = insertClosest pts (60) 500 := by
  have ha : convertRawAngleToDegrees (((13653 : ℕ) : ℚ) * 360 / 16384) = (122895 / 2048 : ℚ) := by
    have hr : (((13653 : ℕ) : ℚ)) * 360 / 16384 = (614385 / 2048 : ℚ) := by norm_num
    rw [hr, convertRaw_high (614385 / 2048 : ℚ) (by norm_num) (by norm_num)]
    try norm_num
  have hq : quantizeAngle (122895 / 2048 : ℚ) = (60) := by
    rw [quantizeAngle_eq,
      roundQ_eval_nonneg ((122895 / 2048 : ℚ) / 5) (12) (by norm_num) (by norm_num) (by norm_num)]
    decide
  rw [processNode_eval pts ⟨13653, 2000⟩ (122895 / 2048 : ℚ) 500 ha (by norm_num) (by norm_num)
    (by norm_num) (by norm_num [MIN_DISTANCE_MM]) (by norm_num [MAX_DISTANCE_MM]), hq]

lemma c8n31 (pts : List (ℤ × ℚ)) :
    processNode pts ⟨13426, 2000⟩ = insertClosest pts (65) 500 := by
  have ha : convertRawAngleToDegrees (((13426 : ℕ) : ℚ) * 360 / 16384) = (66555 / 1024 : ℚ) := by
    have hr : (((13426 : ℕ) : ℚ)) * 360 / 16384 = (302085 / 1024 : ℚ) := by norm_num
    rw [hr, convertRaw_high (302085 / 1024 : ℚ) (by norm_num) (by norm_num)]
    try norm_num
  have hq : quantizeAngle (66555 / 1024 : ℚ) = (65) := by
    rw [quantizeAngle_eq,
      roundQ_eval_nonneg ((66555 / 1024 : ℚ) / 5) (13) (by norm_num) (by norm_num) (by norm_num)]
    decide
  rw [processNode_eval pts ⟨13426, 2000⟩ (66555 / 1024 : ℚ) 500 ha (by norm_num) (by norm_num)
    (by norm_num) (by norm_num [MIN_DISTANCE_MM]) (by norm_num [MAX_DISTANCE_MM]), hq]

lemma c8n32 (pts : List (ℤ × ℚ)) :
    processNode pts ⟨13198, 2000⟩ = insertClosest pts (70) 500 := by
  have ha : convertRawAngleToDegrees (((13198 : ℕ) : ℚ) * 360 / 16384) = (71685 / 1024 : ℚ) := by
    have hr : (((13198 : ℕ) : ℚ)) * 360 / 16384 = (296955 / 1024 : ℚ) := by norm_num
    rw [hr, convertRaw_high (296955 / 1024 : ℚ) (by norm_num) (by norm_num)]
    try norm_num
  have hq : quantizeAngle (71685 / 1024 : ℚ) = (70) := by
    rw [quantizeAngle_eq,
      roundQ_eval_nonneg ((71685 / 1024 : ℚ) / 5) (14) (by norm_num) (by norm_num) (by norm_num)]
    decide
  rw [processNode_eval pts ⟨13198, 2000⟩ (71685 / 1024 : ℚ) 500 ha (by norm_num) (by norm_num)
    (by norm_num) (by norm_num [MIN_DISTANCE_MM]) (by norm_num [MAX_DISTANCE_MM]), hq]

lemma c8n33 (pts : List (ℤ × ℚ)) :
    processNode pts ⟨12971, 2000⟩ = insertClosest pts (75) 500 := by
  have ha : convertRawAngleToDegrees (((12971 : ℕ) : ℚ) * 360 / 16384) = (153585 / 2048 : ℚ) := by
    have hr : (((12971 : ℕ) : ℚ)) * 360 / 16384 = (583695 / 2048 : ℚ) := by norm_num
    rw [hr, convertRaw_high (583695 / 2048 : ℚ) (by norm_num) (by norm_num)]
    try norm_num
  have hq : quantizeAngle (153585 / 2048 : ℚ) = (75) := by
    rw [quantizeAngle_eq,
      roundQ_eval_nonneg ((153585 / 2048 : ℚ) / 5) (15) (by norm_num) (by norm_num) (by norm_num)]
    decide
  rw [processNode_eval pts ⟨12971, 2000⟩ (153585 / 2048 : ℚ) 500 ha (by norm_num) (by norm_num)
    (by norm_num) (by norm_num [MIN_DISTANCE_MM]) (by norm_num [MAX_DISTANCE_MM]), hq]

lemma c8n34 (pts : List (ℤ × ℚ)) :
    processNode pts ⟨12743, 2000⟩ = insertClosest pts (80) 500 := by
  have ha : convertRawAngleToDegrees (((12743 : ℕ) : ℚ) * 360 / 16384) = (163845 / 2048 : ℚ) := by
    have hr : (((12743 : ℕ) : ℚ)) * 360 / 16384 = (573435 / 2048 : ℚ) := by norm_num
    rw [hr, convertRaw_high (573435 / 2048 : ℚ) (by norm_num) (by norm_num)]
    try norm_num
  have hq : quantizeAngle (163845 / 2048 : ℚ) = (80) := by
    rw [quantizeAngle_eq,
      roundQ_eval_nonneg ((163845 / 2048 : ℚ) / 5) (16) (by norm_num) (by norm_num) (by norm_num)]
    decide
  rw [processNode_eval pts ⟨12743, 2000⟩ (163845 / 2048 : ℚ) 500 ha (by norm_num) (by norm_num)
    (by norm_num) (by norm_num [MIN_DISTANCE_MM]) (by norm_num [MAX_DISTANCE_MM]), hq]

lemma c8n35 (pts : List (ℤ × ℚ)) :
    processNode pts ⟨12516, 2000⟩ = insertClosest pts (85) 500 := by
  have ha : convertRawAngleToDegrees (((12516 : ℕ) : ℚ) * 360 / 16384) = (43515 / 512 : ℚ) := by
    have hr : (((12516 : ℕ) : ℚ)) * 360 / 16384 = (140805 / 512 : ℚ) := by norm_num
    rw [hr, convertRaw_high (140805 / 512 : ℚ) (by norm_num) (by norm_num)]
    try norm_num
  have hq : quantizeAngle (43515 / 512 : ℚ) = (85) := by
    rw [quantizeAngle_eq,
      roundQ_eval_nonneg ((43515 / 512 : ℚ) / 5) (17) (by norm_num) (by norm_num) (by norm_num)]
    decide
  rw [processNode_eval pts ⟨12516, 2000⟩ (43515 / 512 : ℚ) 500 ha (by norm_num) (by norm_num)
    (by norm_num) (by norm_num [MIN_DISTANCE_MM]) (by norm_num [MAX_DISTANCE_MM]), hq]

lemma c8n36 (pts : List (ℤ × ℚ)) :
    processNode pts ⟨12288, 2000⟩ = insertClosest pts (90) 500 := by
  have ha : convertRawAngleToDegrees (((12288 : ℕ) : ℚ) * 360 / 16384) = (90 : ℚ) := by
    have hr : (((12288 : ℕ) : ℚ)) * 360 / 16384 = (270 : ℚ) := by norm_num
    rw [hr, convertRaw_high (270 : ℚ) (by norm_num) (by norm_num)]
    try norm_num
  have hq : quantizeAngle (90 : ℚ) = (90) := by
    rw [quantizeAngle_eq,
      roundQ_eval_nonneg ((90 : ℚ) / 5) (18) (by norm_num) (by norm_num) (by norm_num)]
    decide
  rw [processNode_eval pts ⟨12288, 2000⟩ (90 : ℚ) 500 ha (by norm_num) (by norm_num)
    (by norm_num) (by norm_num [MIN_DISTANCE_MM]) (by norm_num [MAX_DISTANCE_MM]), hq]

/-- A synthetic scan hitting every one of the 37 buckets. -/
def c8scan : List LidarNode := [⟨4096, 2000⟩, ⟨3868, 2000⟩, ⟨3641, 2000⟩, ⟨3413, 2000⟩, ⟨3186, 2000⟩, ⟨2958, 2000⟩, ⟨2731, 2000⟩, ⟨2503, 2000⟩, ⟨2276, 2000⟩, ⟨2048, 2000⟩, ⟨1820, 2000⟩, ⟨1593, 2000⟩, ⟨1365, 2000⟩, ⟨1138, 2000⟩, ⟨910, 2000⟩, ⟨683, 2000⟩, ⟨455, 2000⟩, ⟨228, 2000⟩, ⟨0, 2000⟩, ⟨16156, 2000⟩, ⟨15929, 2000⟩, ⟨15701, 2000⟩, ⟨15474, 2000⟩, ⟨15246, 2000⟩, ⟨15019, 2000⟩, ⟨14791, 2000⟩, ⟨14564, 2000⟩, ⟨14336, 2000⟩, ⟨14108, 2000⟩, ⟨13881, 2000⟩, ⟨13653, 2000⟩, ⟨13426, 2000⟩, ⟨13198, 2000⟩, ⟨12971, 2000⟩, ⟨12743, 2000⟩, ⟨12516, 2000⟩, ⟨12288, 2000⟩]

lemma c8scan_eval : downsampleScan c8scan = [((-90 : ℤ), (500 : ℚ)), ((-85 : ℤ), (500 : ℚ)), ((-80 : ℤ), (500 : ℚ)), ((-75 : ℤ), (500 : ℚ)), ((-70 : ℤ), (500 : ℚ)), ((-65 : ℤ), (500 : ℚ)), ((-60 : ℤ), (500 : ℚ)), ((-55 : ℤ), (500 : ℚ)), ((-50 : ℤ), (500 : ℚ)), ((-45 : ℤ), (500 : ℚ)), ((-40 : ℤ), (500 : ℚ)), ((-35 : ℤ), (500 : ℚ)), ((-30 : ℤ), (500 : ℚ)), ((-25 : ℤ), (500 : ℚ)), ((-20 : ℤ), (500 : ℚ)), ((-15 : ℤ), (500 : ℚ)), ((-10 : ℤ), (500 : ℚ)), ((-5 : ℤ), (500 : ℚ)), ((0 : ℤ), (500 : ℚ)), ((5 : ℤ), (500 : ℚ)), ((10 : ℤ), (500 : ℚ)), ((15 : ℤ), (500 : ℚ)), ((20 : ℤ), (500 : ℚ)), ((25 : ℤ), (500 : ℚ)), ((30 : ℤ), (500 : ℚ)), ((35 : ℤ), (500 : ℚ)), ((40 : ℤ), (500 : ℚ)), ((45 : ℤ), (500 : ℚ)), ((50 : ℤ), (500 : ℚ)), ((55 : ℤ), (500 : ℚ)), ((60 : ℤ), (500 : ℚ)), ((65 : ℤ), (500 : ℚ)), ((70 : ℤ), (500 : ℚ)), ((75 : ℤ), (500 : ℚ)), ((80 : ℤ), (500 : ℚ)), ((85 : ℤ), (500 : ℚ)), ((90 : ℤ), (500 : ℚ))] := by
  unfold downsampleScan c8scan
  simp only [List.foldl, c8n0, c8n1, c8n2, c8n3, c8n4, c8n5, c8n6, c8n7, c8n8, c8n9, c8n10, c8n11, c8n12, c8n13, c8n14, c8n15, c8n16, c8n17, c8n18, c8n19, c8n20, c8n21, c8n22, c8n23, c8n24, c8n25, c8n26, c8n27, c8n28, c8n29, c8n30, c8n31, c8n32, c8n33, c8n34, c8n35, c8n36]
  norm_num [insertClosest]

/-- C8 (counterexample): a scan reaching all 37 buckets produces a profile
with `37` entries, exceeding the claimed bound `181 / resolution = 36.2`
(resolution `ANGLE_BUCKET_SIZE = 5`). -/
theorem claim_C8_counterexample :
    (downsampleScan c8scan).length = 37 ∧
      ¬(((downsampleScan c8scan).length : ℚ) ≤ 181 / ANGLE_BUCKET_SIZE) := by
  have h : (downsampleScan c8scan).length = 37 := by rw [c8scan_eval]; rfl
  refine ⟨h, ?_⟩
  rw [h]
  norm_num [ANGLE_BUCKET_SIZE]

-- Object cache data model (lines 54-65) and identity (lines 553-563).

/-- Structure `DetectedObject` of the source. -/
structure DetectedObject where
  label : String
  confidence : ℚ
  angle_deg : ℚ
  distance_mm : ℚ
  area : ℚ
  last_update_ms : ℕ

/-- One camera detection as parsed from the `detections` array. -/
structure Detection where
  label : String
  confidence : ℚ
  angle_deg : ℚ
  area : ℚ

/-- Identity `objId = label + "_" + to_string(static_cast<int>(angleCam))` —
note the C cast truncates toward zero. -/
def mkObjectId (label : String) (angleCam : ℚ) : String :=
  label ++ "_" ++ toString (truncQ angleCam)

/-- Upsert `g_objects[objId]` followed by assignment of every field: insert a new
entry or overwrite the existing entry for `id` wholesale. -/
def upsertObject (objs : List (String × DetectedObject)) (id : String)
    (o : DetectedObject) : List (String × DetectedObject) :=
  match findKey objs id with
  | none => (id, o) :: objs
  | some _ => objs.map (fun p => if p.1 = id then (id, o) else p)

/-- Wrapping `uint64_t` subtraction `a - b`. -/
def usub64 (a b : ℕ) : ℕ := (a + (2 ^ 64 - b % 2 ^ 64)) % 2 ^ 64

lemma usub64_eq (a b : ℕ) (h1 : b ≤ a) (h2 : a < 2 ^ 64) : usub64 a b = a - b := by
  unfold usub64
  have hb : b % 2 ^ 64 = b := Nat.mod_eq_of_lt (lt_of_le_of_lt h1 h2)
  rw [hb]
  have hsplit : a + (2 ^ 64 - b) = (a - b) + 2 ^ 64 := by omega
  rw [hsplit, Nat.add_mod_right]
  exact Nat.mod_eq_of_lt (by omega)

/-- Function `cleanOldObjects()`: erase every entry whose wrapped age exceeds
`MAX_OBJECT_AGE_MS`, keep the rest. -/
def cleanOldObjects (objs : List (String × DetectedObject)) (current_time : ℕ) :
    List (String × DetectedObject) :=
  objs.filter (fun p => !decide (MAX_OBJECT_AGE_MS < usub64 current_time p.2.last_update_ms))

lemma findKey_map_overwrite {α β : Type} [DecidableEq α] (l : List (α × β)) (k : α)
    (o : β) (v : β) (h : findKey l k = some v) :
    findKey (l.map (fun p => if p.1 = k then (k, o) else p)) k = some o := by
  induction l with
  | nil => simp [findKey] at h
  | cons p rest ih =>
    by_cases hp : p.1 = k
    · simp [findKey, hp]
    · simp only [findKey, if_neg hp] at h
      simp only [List.map_cons, if_neg hp, findKey, if_neg hp]
      exact ih h

lemma findKey_upsert (objs : List (String × DetectedObject)) (id : String)
    (o : DetectedObject) : findKey (upsertObject objs id o) id = some o := by
  rcases h : findKey objs id with _ | v
  · unfold upsertObject
    rw [h]
    simp [findKey]
  · unfold upsertObject
    rw [h]
    exact findKey_map_overwrite objs id o v h

-- Claim C4: object identity and full overwrite.

/-- Label/id string constants used in the identity claims. -/
def carLabel : String := "car"

def carId12 : String := "car_12"

lemma truncQ_eval_63_5 : truncQ (63 / 5 : ℚ) = 12 := by
  unfold truncQ
  rw [if_pos (by norm_num), Int.floor_eq_iff]
  norm_num

lemma truncQ_eval_62_5 : truncQ (62 / 5 : ℚ) = 12 := by
  unfold truncQ
  rw [if_pos (by norm_num), Int.floor_eq_iff]
  norm_num

/-- C4 (counterexample): the id is built with C truncation toward zero, not
round-to-nearest: at angle `12.6` the code produces `"car_12"` while the
claimed `label + "_" + round(angle)` rule would give `"car_13"`. -/
theorem claim_C4_counterexample :
    mkObjectId carLabel (63 / 5) ≠ carLabel ++ "_" ++ toString (roundQ (63 / 5)) := by
  unfold mkObjectId
  rw [truncQ_eval_63_5,
    roundQ_eval_nonneg (63 / 5) 13 (by norm_num) (by norm_num) (by norm_num)]
  decide

/-- C4 (amended): the tracked-object id is the label concatenated with `"_"`
and the detection's `angle_deg` truncated toward zero (C `static_cast<int>`),
so detections `{label:"car", angle:12.4}` and `{label:"car", angle:12.6}`
both map to id `"car_12"`; and a successful correlation with an existing id
overwrites every stored field entirely (last writer wins, no merging). -/
theorem claim_C4 :
    mkObjectId carLabel (62 / 5) = carId12 ∧ mkObjectId carLabel (63 / 5) = carId12 ∧
      (∀ (objs : List (String × DetectedObject)) (id : String) (o : DetectedObject),
        findKey (upsertObject objs id o) id = some o) := by
  refine ⟨?_, ?_, findKey_upsert⟩
  · unfold mkObjectId
    rw [truncQ_eval_62_5]
    decide
  · unfold mkObjectId
    rw [truncQ_eval_63_5]
    decide

-- Claim C9: expiry of cached objects.

/-- Id/object constants for the expiry claims. -/
def sampleId : String := "obs"

/-- An object last updated at `t = 1000` ms. -/
def sampleObject : DetectedObject := ⟨sampleId, 1, 0, 500, 1, 1000⟩

/-- C9: an entry is retained by `cleanOldObjects` at time `now` exactly when
`now - last_update_ms ≤ MAX_OBJECT_AGE_MS` (for non-wrapping timestamps);
in particular an object updated at `t = 1000` with `MAX_OBJECT_AGE_MS = 500`
is still present at `t = 1400` and gone at `t = 1600`. -/
theorem claim_C9 :
    (∀ (objs : List (String × DetectedObject)) (now : ℕ) (p : String × DetectedObject),
      p.2.last_update_ms ≤ now → now < 2 ^ 64 →
      (p ∈ cleanOldObjects objs now ↔
        p ∈ objs ∧ now - p.2.last_update_ms ≤ MAX_OBJECT_AGE_MS)) ∧
      (sampleId, sampleObject) ∈ cleanOldObjects [(sampleId, sampleObject)] 1400 ∧
      (sampleId, sampleObject) ∉ cleanOldObjects [(sampleId, sampleObject)] 1600 := by
  have hmain : ∀ (objs : List (String × DetectedObject)) (now : ℕ)
      (p : String × DetectedObject), p.2.last_update_ms ≤ now → now < 2 ^ 64 →
      (p ∈ cleanOldObjects objs now ↔
        p ∈ objs ∧ now - p.2.last_update_ms ≤ MAX_OBJECT_AGE_MS) := by
    intro objs now p h1 h2
    unfold cleanOldObjects
    rw [List.mem_filter, usub64_eq _ _ h1 h2]
    simp
  refine ⟨hmain, ?_, ?_⟩
  · rw [hmain [(sampleId, sampleObject)] 1400 (sampleId, sampleObject)
      (by norm_num [sampleObject]) (by norm_num)]
    refine ⟨List.mem_singleton.mpr rfl, ?_⟩
    norm_num [sampleObject, MAX_OBJECT_AGE_MS]
  · rw [hmain [(sampleId, sampleObject)] 1600 (sampleId, sampleObject)
      (by norm_num [sampleObject]) (by norm_num)]
    intro h
    have := h.2
    norm_num [sampleObject, MAX_OBJECT_AGE_MS] at this

/-- C9 (witness): the retention criterion applied at a concrete cache, time
and entry. -/
theorem claim_C9_witness :
    (sampleId, sampleObject) ∈ cleanOldObjects [(sampleId, sampleObject)] 1400 ↔
      (sampleId, sampleObject) ∈ [(sampleId, sampleObject)] ∧
        1400 - sampleObject.last_update_ms ≤ MAX_OBJECT_AGE_MS :=
  claim_C9.1 [(sampleId, sampleObject)] 1400 (sampleId, sampleObject)
    (by norm_num [sampleObject]) (by norm_num)

-- Claim C10: every cached distance comes from the range-filtered profile.

/-- Correlate one detection and, on success, upsert the tracked object with
every field overwritten (lines 528-575 of `main`). -/
def processDetection (buckets : List (ℤ × ℚ)) (current_time : ℕ)
    (objs : List (String × DetectedObject)) (det : Detection) :
    List (String × DetectedObject) :=
  match correlateDetection buckets det.angle_deg with
  | none => objs
  | some r =>
    upsertObject objs (mkObjectId det.label det.angle_deg)
      ⟨det.label, det.confidence, det.angle_deg, r.1, det.area, current_time⟩

/-- Input of one acquisition-loop iteration: the raw scan, the detections
drained this cycle (empty when none arrived), and the current time. -/
structure LoopInput where
  nodes : List LidarNode
  dets : List Detection
  time : ℕ

/-- One loop cycle: rebuild the profile, correlate and upsert the pending
detections, then age the cache. -/
def cycleStep (objs : List (String × DetectedObject)) (inp : LoopInput) :
    List (String × DetectedObject) :=
  cleanOldObjects
    (inp.dets.foldl (processDetection (downsampleScan inp.nodes) inp.time) objs) inp.time

/-- The cache reached after a sequence of cycles, starting empty. -/
def runCycles (inps : List LoopInput) : List (String × DetectedObject) :=
  inps.foldl cycleStep []

lemma probeFold_cases (pts : List (ℤ × ℚ)) (q : ℚ) :
    findClosestLidarPoint pts q = (-1, 9999) ∨
      ∃ k, (k, (findClosestLidarPoint pts q).1) ∈ pts := by
  rw [findClosest_unfold]
  have step : ∀ (acc : ℚ × ℚ) (k : ℤ),
      (acc = (-1, 9999) ∨ ∃ k0, (k0, acc.1) ∈ pts) →
      (probeStep pts q acc k = (-1, 9999) ∨ ∃ k0, (k0, (probeStep pts q acc k).1) ∈ pts) := by
    intro acc k hacc
    rcases hf : findKey pts k with _ | d
    · rw [probeStep_none pts q acc k hf]
      exact hacc
    · by_cases hlt : |q - (k : ℚ)| < acc.2
      · rw [probeStep_found_lt pts q acc k d hf hlt]
        exact Or.inr ⟨k, findKey_some_mem _ _ _ hf⟩
      · rw [probeStep_found_ge pts q acc k d hf hlt]
        exact hacc
  exact step _ _ (step _ _ (step _ _ (Or.inl rfl)))

lemma correlateDetection_of_none (pts : List (ℤ × ℚ)) (q : ℚ)
    (h : findKey pts (quantizeAngle q) = none) :
    correlateDetection pts q =
      if (findClosestLidarPoint pts q).2 ≤ MAX_ANGLE_DIFF ∧
          0 < (findClosestLidarPoint pts q).1 then
        some (findClosestLidarPoint pts q)
      else none := by
  unfold correlateDetection
  rw [h]

lemma correlateDetection_of_some (pts : List (ℤ × ℚ)) (q : ℚ) (d : ℚ)
    (h : findKey pts (quantizeAngle q) = some d) :
    correlateDetection pts q =
      if (0 : ℚ) ≤ MAX_ANGLE_DIFF ∧ 0 < d then some (d, 0) else none := by
  unfold correlateDetection
  rw [h]

lemma correlate_some_mem (pts : List (ℤ × ℚ)) (q : ℚ) (r : ℚ × ℚ)
    (h : correlateDetection pts q = some r) : ∃ k, (k, r.1) ∈ pts := by
  rcases hf : findKey pts (quantizeAngle q) with _ | d
  · rw [correlateDetection_of_none pts q hf] at h
    split_ifs at h with hc
    · rcases probeFold_cases pts q with hcase | hcase
      · rw [hcase] at h hc
        cases h
        norm_num at hc
      · rcases hcase with ⟨k, hk⟩
        cases h
        exact ⟨k, hk⟩
  · rw [correlateDetection_of_some pts q d hf] at h
    split_ifs at h with hc
    cases h
    exact ⟨quantizeAngle q, findKey_some_mem _ _ _ hf⟩

lemma upsertObject_mem (objs : List (String × DetectedObject)) (id : String)
    (o : DetectedObject) (p : String × DetectedObject)
    (h : p ∈ upsertObject objs id o) : p ∈ objs ∨ p.2 = o := by
  unfold upsertObject at h
  rcases hf : findKey objs id with _ | v
  · rw [hf] at h
    rw [List.mem_cons] at h
    rcases h with h | h
    · exact Or.inr (by rw [h])
    · exact Or.inl h
  · rw [hf] at h
    rw [List.mem_map] at h
    rcases h with ⟨p2, hp2, hmap⟩
    by_cases hc : p2.1 = id
    · rw [if_pos hc] at hmap
      exact Or.inr (by rw [← hmap])
    · rw [if_neg hc] at hmap
      exact Or.inl (hmap ▸ hp2)

/-- Cache invariant: every stored distance is in the filtered range. -/
def cacheOk (objs : List (String × DetectedObject)) : Prop :=
  ∀ p ∈ objs, MIN_DISTANCE_MM ≤ p.2.distance_mm ∧ p.2.distance_mm ≤ MAX_DISTANCE_MM

lemma processDetection_ok (buckets : List (ℤ × ℚ)) (t : ℕ)
    (objs : List (String × DetectedObject)) (det : Detection)
    (hb : ∀ p ∈ buckets, MIN_DISTANCE_MM ≤ p.2 ∧ p.2 ≤ MAX_DISTANCE_MM)
    (h : cacheOk objs) : cacheOk (processDetection buckets t objs det) := by
  unfold processDetection
  rcases hc : correlateDetection buckets det.angle_deg with _ | r
  · exact h
  · intro p hp
    rcases upsertObject_mem _ _ _ _ hp with h2 | h2
    · exact h p h2
    · rcases correlate_some_mem _ _ _ hc with ⟨k, hk⟩
      rw [h2]
      exact hb (k, r.1) hk

lemma cycleStep_ok (objs : List (String × DetectedObject)) (inp : LoopInput)
    (h : cacheOk objs) : cacheOk (cycleStep objs inp) := by
  unfold cycleStep
  have hfold : cacheOk
      (inp.dets.foldl (processDetection (downsampleScan inp.nodes) inp.time) objs) := by
    have hb : ∀ p ∈ downsampleScan inp.nodes,
        MIN_DISTANCE_MM ≤ p.2 ∧ p.2 ≤ MAX_DISTANCE_MM :=
      fun p hp => ((downsampleScan_ok inp.nodes).1 p hp).2
    exact foldl_preserve _ cacheOk
      (fun a b ha => processDetection_ok _ _ _ _ hb ha) inp.dets objs h
  intro p hp
  unfold cleanOldObjects at hp
  exact hfold p (List.mem_filter.mp hp).1

/-- C10: in every state reachable by the acquisition loop from the empty
cache, every cached object's `distance_mm` lies in
`[MIN_DISTANCE_MM, MAX_DISTANCE_MM]` — hence is strictly positive — because
an upsert only ever stores a distance taken from the range-filtered profile
and no other operation modifies a stored distance. -/
theorem claim_C10 (inps : List LoopInput) (p : String × DetectedObject)
    (hp : p ∈ runCycles inps) :
    0 < p.2.distance_mm ∧ MIN_DISTANCE_MM ≤ p.2.distance_mm ∧
      p.2.distance_mm ≤ MAX_DISTANCE_MM := by
  have hok : cacheOk (runCycles inps) := by
    unfold runCycles
    exact foldl_preserve cycleStep cacheOk (fun a b ha => cycleStep_ok a b ha) inps []
      (by intro p hp; simp at hp)
  have h := hok p hp
  refine ⟨lt_of_lt_of_le (by norm_num [MIN_DISTANCE_MM]) h.1, h.1, h.2⟩

/-- Label and id constants for the end-to-end witness run. -/
def xLabel : String := "x"

def xId : String := "x_0"

/-- A camera detection at angle `0`. -/
def witnessDet : Detection := ⟨xLabel, 9 / 10, 0, 50⟩

/-- The object the witness run caches. -/
def witnessObj : DetectedObject := ⟨xLabel, 9 / 10, 0, 500, 50, 0⟩

/-- One witness cycle: a scan with one forward sample at 500 mm and one
detection at angle `0`, at time `0`. -/
def witnessInput : LoopInput := ⟨[⟨0, 2000⟩], [witnessDet], 0⟩

lemma witness_scan : downsampleScan [(⟨0, 2000⟩ : LidarNode)] = [(0, 500)] := by
  norm_num [downsampleScan, List.foldl, processNode,
    convertRaw_low 0 (by norm_num) (by norm_num), quantizeAngle_eq, roundQ, insertClosest,
    MIN_DISTANCE_MM, MAX_DISTANCE_MM]

lemma witness_run : runCycles [witnessInput] = [(xId, witnessObj)] := by
  have hfind : findKey [((0 : ℤ), (500 : ℚ))] (quantizeAngle (0 : ℚ)) = some 500 := by
    norm_num [quantizeAngle_eq, roundQ, findKey]
  have hcorr : correlateDetection [((0 : ℤ), (500 : ℚ))] 0 = some (500, 0) := by
    rw [correlateDetection_of_some _ _ 500 hfind]
    norm_num [MAX_ANGLE_DIFF]
  have ht : truncQ (0 : ℚ) = 0 := by
    unfold truncQ
    rw [if_pos le_rfl]
    norm_num
  have hid : mkObjectId xLabel 0 = xId := by
    unfold mkObjectId
    rw [ht]
    decide
  have h00 : usub64 0 0 = 0 := usub64_eq 0 0 le_rfl (by norm_num)
  simp only [runCycles, witnessInput, List.foldl, cycleStep, processDetection, witnessDet,
    witness_scan, hcorr, hid, upsertObject, findKey, cleanOldObjects, List.filter, h00,
    MAX_OBJECT_AGE_MS, witnessObj]
  norm_num

/-- C10 (witness): the invariant holds for the entry produced by a concrete
end-to-end cycle. -/
theorem claim_C10_witness :
    0 < witnessObj.distance_mm ∧ MIN_DISTANCE_MM ≤ witnessObj.distance_mm ∧
      witnessObj.distance_mm ≤ MAX_DISTANCE_MM :=
  claim_C10 [witnessInput] (xId, witnessObj) (by rw [witness_run]; exact List.mem_singleton.mpr rfl)

-- Claim C5: heartbeat publishing (lines 173-227 and 589-593).

/-- Publisher-side state: the timer `g_last_obj_publish_time` and the list
of times at which an objects-out message was actually sent. -/
structure PublisherState where
  last_obj_publish_time : ℕ
  sends : List ℕ

/-- Function `publishObjects(force)`: return unchanged (no send, timer not
reset) when neither forced nor due, or when the snapshot is empty; otherwise
reset the timer and send the snapshot. -/
def publishObjects (objs : List (String × DetectedObject)) (force : Bool)
    (current_time : ℕ) (s : PublisherState) : PublisherState :=
  let should_publish := force ||
    decide (FORCE_PUBLISH_MS ≤ usub64 current_time s.last_obj_publish_time)
  if !should_publish || objs.isEmpty then s
  else ⟨current_time, s.sends ++ [current_time]⟩

/-- One zero-detection loop iteration (lines 586-593): age the cache, then
force-publish when `FORCE_PUBLISH_MS` has elapsed since the last publish. -/
def heartbeatStep (s : List (String × DetectedObject) × PublisherState)
    (current_time : ℕ) : List (String × DetectedObject) × PublisherState :=
  let objs2 := cleanOldObjects s.1 current_time
  (objs2,
    if FORCE_PUBLISH_MS ≤ usub64 current_time s.2.last_obj_publish_time then
      publishObjects objs2 true current_time s.2
    else s.2)

/-- A run of zero-detection iterations at the given times. -/
def heartbeatRun (s : List (String × DetectedObject) × PublisherState)
    (ts : List ℕ) : List (String × DetectedObject) × PublisherState :=
  ts.foldl heartbeatStep s

lemma publishObjects_empty (force : Bool) (t : ℕ) (s : PublisherState) :
    publishObjects [] force t s = s := by
  unfold publishObjects
  simp

lemma cleanOldObjects_nil (t : ℕ) : cleanOldObjects [] t = [] := rfl

/-- C5 (counterexample): with an empty cache and zero detections, the
iterations at times `0, 50, 100, 150, 200` — covering a whole window of
length `2 * FORCE_PUBLISH_MS = 200` — produce no objects-out send at all:
the empty-snapshot no-op makes the claimed guaranteed publish false. -/
theorem claim_C5_counterexample :
    (heartbeatRun (([] : List (String × DetectedObject)), ⟨0, []⟩)
      [0, 50, 100, 150, 200]).2.sends = [] := by
  simp [heartbeatRun, List.foldl, heartbeatStep, cleanOldObjects_nil, publishObjects_empty,
    ite_self]

lemma heartbeatRun_cons (s : List (String × DetectedObject) × PublisherState)
    (t : ℕ) (ts : List ℕ) :
    heartbeatRun s (t :: ts) = heartbeatRun (heartbeatStep s t) ts := rfl

lemma heartbeatStep_sends_mono (s : List (String × DetectedObject) × PublisherState)
    (t : ℕ) (u : ℕ) (h : u ∈ s.2.sends) : u ∈ (heartbeatStep s t).2.sends := by
  unfold heartbeatStep
  dsimp only
  split_ifs with hc
  · unfold publishObjects
    dsimp only
    split_ifs with hc2
    · exact h
    · simp only [List.mem_append]
      exact Or.inl h
  · exact h

lemma heartbeatRun_sends_mono (ts : List ℕ) :
    ∀ (s : List (String × DetectedObject) × PublisherState) (u : ℕ),
      u ∈ s.2.sends → u ∈ (heartbeatRun s ts).2.sends := by
  induction ts with
  | nil => intro s u h; exact h
  | cons t rest ih =>
    intro s u h
    rw [heartbeatRun_cons]
    exact ih _ u (heartbeatStep_sends_mono s t u h)

lemma mem_cleanOldObjects (objs : List (String × DetectedObject)) (t : ℕ)
    (q : String × DetectedObject) (hq : q ∈ objs)
    (hage : usub64 t q.2.last_update_ms ≤ MAX_OBJECT_AGE_MS) :
    q ∈ cleanOldObjects objs t := by
  unfold cleanOldObjects
  rw [List.mem_filter]
  exact ⟨hq, by simp [not_lt.mpr hage]⟩

lemma heartbeat_window (T : ℕ) :
    ∀ (ts : List ℕ) (objs0 : List (String × DetectedObject)) (p0 : PublisherState),
      List.Pairwise (· ≤ ·) ts →
      (∀ t ∈ ts, p0.last_obj_publish_time ≤ t ∧ t < 2 ^ 64) →
      p0.last_obj_publish_time ≤ T →
      (∃ tj ∈ ts, T + FORCE_PUBLISH_MS ≤ tj ∧ tj ≤ T + 2 * FORCE_PUBLISH_MS) →
      (∃ q ∈ objs0, ∀ t ∈ ts, usub64 t q.2.last_update_ms ≤ MAX_OBJECT_AGE_MS) →
      ∃ u ∈ (heartbeatRun (objs0, p0) ts).2.sends,
        T ≤ u ∧ u ≤ T + 2 * FORCE_PUBLISH_MS := by
  intro ts
  induction ts with
  | nil =>
    intro objs0 p0 _ _ _ hw _
    rcases hw with ⟨tj, htj, _⟩
    simp at htj
  | cons t rest ih =>
    intro objs0 p0 hsort hbound hlast hw hsurv
    obtain ⟨hp0t, ht64⟩ := hbound t (List.mem_cons_self _ _)
    have hu : usub64 t p0.last_obj_publish_time = t - p0.last_obj_publish_time :=
      usub64_eq _ _ hp0t ht64
    rcases hsurv with ⟨q, hq, hqall⟩
    have hq1 : q ∈ cleanOldObjects objs0 t :=
      mem_cleanOldObjects objs0 t q hq (hqall t (List.mem_cons_self _ _))
    have hnonempty : (cleanOldObjects objs0 t).isEmpty = false := by
      rcases hcl : cleanOldObjects objs0 t with _ | ⟨p, l⟩
      · rw [hcl] at hq1
        simp at hq1
      · rfl
    rw [heartbeatRun_cons]
    by_cases hc : FORCE_PUBLISH_MS ≤ usub64 t p0.last_obj_publish_time
    · have hstep : heartbeatStep (objs0, p0) t =
          (cleanOldObjects objs0 t, ⟨t, p0.sends ++ [t]⟩) := by
        unfold heartbeatStep publishObjects
        dsimp only
        rw [if_pos hc]
        simp [hnonempty]
      rw [hstep]
      by_cases hT : T ≤ t
      · have htle : t ≤ T + 2 * FORCE_PUBLISH_MS := by
          rcases hw with ⟨tj, htj, h1, h2⟩
          rcases List.mem_cons.mp htj with rfl | htj2
          · exact h2
          · have hle : t ≤ tj := (List.pairwise_cons.mp hsort).1 tj htj2
            omega
        exact ⟨t, heartbeatRun_sends_mono rest _ t (by simp), hT, htle⟩
      · push_neg at hT
        apply ih (cleanOldObjects objs0 t) ⟨t, p0.sends ++ [t]⟩
          (List.pairwise_cons.mp hsort).2
        · intro t2 ht2
          exact ⟨(List.pairwise_cons.mp hsort).1 t2 ht2,
            (hbound t2 (List.mem_cons_of_mem _ ht2)).2⟩
        · exact le_of_lt hT
        · rcases hw with ⟨tj, htj, h1, h2⟩
          rcases List.mem_cons.mp htj with rfl | htj2
          · omega
          · exact ⟨tj, htj2, h1, h2⟩
        · exact ⟨q, hq1, fun t2 ht2 => hqall t2 (List.mem_cons_of_mem _ ht2)⟩
    · have hstep : heartbeatStep (objs0, p0) t = (cleanOldObjects objs0 t, p0) := by
        unfold heartbeatStep
        dsimp only
        rw [if_neg hc]
      rw [hstep]
      apply ih (cleanOldObjects objs0 t) p0 (List.pairwise_cons.mp hsort).2
      · intro t2 ht2
        exact ⟨(hbound t2 (List.mem_cons_of_mem _ ht2)).1,
          (hbound t2 (List.mem_cons_of_mem _ ht2)).2⟩
      · exact hlast
      · rcases hw with ⟨tj, htj, h1, h2⟩
        rcases List.mem_cons.mp htj with rfl | htj2
        · rw [hu] at hc
          omega
        · exact ⟨tj, htj2, h1, h2⟩
      · exact ⟨q, hq1, fun t2 ht2 => hqall t2 (List.mem_cons_of_mem _ ht2)⟩

/-- C5 (amended): a publish attempt with an empty snapshot is a no-op
(nothing is sent and the timer is not reset); and under the conditions the
code actually needs — the loop completes zero-detection iterations at
sorted times, some iteration falls in the second half of the window, and
the cache stays nonempty (an object young enough survives aging throughout)
— every window `[T, T + 2 * FORCE_PUBLISH_MS]` contains at least one
objects-out send. With an empty cache no send occurs at all. -/
theorem claim_C5 :
    (∀ (force : Bool) (t : ℕ) (s : PublisherState), publishObjects [] force t s = s) ∧
      (∀ (T : ℕ) (ts : List ℕ) (objs0 : List (String × DetectedObject))
        (p0 : PublisherState),
        List.Pairwise (· ≤ ·) ts →
        (∀ t ∈ ts, p0.last_obj_publish_time ≤ t ∧ t < 2 ^ 64) →
        p0.last_obj_publish_time ≤ T →
        (∃ tj ∈ ts, T + FORCE_PUBLISH_MS ≤ tj ∧ tj ≤ T + 2 * FORCE_PUBLISH_MS) →
        (∃ q ∈ objs0, ∀ t ∈ ts, usub64 t q.2.last_update_ms ≤ MAX_OBJECT_AGE_MS) →
        ∃ u ∈ (heartbeatRun (objs0, p0) ts).2.sends,
          T ≤ u ∧ u ≤ T + 2 * FORCE_PUBLISH_MS) :=
  ⟨publishObjects_empty, fun T ts objs0 p0 => heartbeat_window T ts objs0 p0⟩

/-- C5 (witness): a concrete nonempty-cache run with one iteration at time
`1100` inside the window `[1000, 1200]` produces a send in that window. -/
theorem claim_C5_witness :
    ∃ u ∈ (heartbeatRun ([(sampleId, sampleObject)], ⟨0, []⟩) [1100]).2.sends,
      1000 ≤ u ∧ u ≤ 1000 + 2 * FORCE_PUBLISH_MS :=
  claim_C5.2 1000 [1100] [(sampleId, sampleObject)] ⟨0, []⟩
    (by simp)
    (by
      intro t ht
      simp only [List.mem_singleton] at ht
      subst ht
      norm_num)
    (by norm_num)
    ⟨1100, by simp, by norm_num [FORCE_PUBLISH_MS], by norm_num [FORCE_PUBLISH_MS]⟩
    ⟨(sampleId, sampleObject), by simp, by
      intro t ht
      simp only [List.mem_singleton] at ht
      subst ht
      rw [show sampleObject.last_update_ms = 1000 from rfl,
        usub64_eq 1100 1000 (by norm_num) (by norm_num)]
      norm_num [MAX_OBJECT_AGE_MS]⟩
